import Mathlib

/-!
Verification development for the self-refreshing cache subsystem of the
`httpclient` Go library (the `CachedClient` type and its methods
`SetupCachedEndpoint`, `updateCache`, `GetCached`, `GetCachedOrFetch`,
`StopCacheUpdates` and `Stop`).

The Go source is translated into a shallow embedding:

* Timestamps are nanoseconds since the Go zero time (January 1, year 1,
  UTC), as mathematical integers; the zero `time.Time` sentinel is `0`.
* `time.Duration` values are 64-bit signed nanosecond counts; the
  subtraction `time.Time.Sub` (used by `time.Since`) saturates at the
  bounds of `time.Duration` on overflow, which the embedding models
  explicitly (`timeSub`).
* Go maps keyed by strings become association lists with overwrite
  insertion; the in-place mutation of a `*CacheEntry` behind the map
  becomes a pointwise update of the stored value.
* The network (`c.Get`), `io.ReadAll` and `json.Unmarshal` are external
  collaborators: one invocation of `updateCache` is driven by an explicit
  `GetResult` describing what the round trip returned, plus a `decode`
  function standing for `json.Unmarshal` into the registered shape.
* `time.ParseDuration` and the acceptance test of `cron.AddFunc` are
  external library collaborators and appear as an abstract `SchedEnv`.
* The client lifecycle (registrations, stop channels, tickers, cron jobs,
  background tasks) is a state machine; scheduled triggers are explicit
  `fireTask` events, and every network round trip is appended to a
  `fetchLog` recording which path was fetched and under which context
  (caller context or the scheduler's own background context).
-/

namespace HttpClientCache

/-- Maximum value of Go `time.Duration`: `1<<63 - 1` nanoseconds. -/
def maxDuration : Int := 9223372036854775807

/-- Minimum value of Go `time.Duration`: `-1 << 63` nanoseconds. -/
def minDuration : Int := -9223372036854775808

/-- One minute (`time.Minute`) in nanoseconds. -/
def minuteNs : Int := 60000000000

/-- Go `t.Sub(u)` for wall-clock times, as used by `time.Since`:
the mathematical difference, saturated at the bounds of `time.Duration`
on overflow (per the documented behavior of `time.Time.Sub`). -/
def timeSub (t u : Int) : Int :=
  if t - u > maxDuration then maxDuration
  else if t - u < minDuration then minDuration
  else t - u

/-- The `CacheEntry` struct: last decoded payload, timestamp of the last
successful refresh (`0` = the zero-time sentinel), freshness window. -/
structure CacheEntry (α : Type) where
  data : α
  updatedAt : Int
  expiration : Int
deriving DecidableEq

/-- The `cache` field of `CachedClient`: a map from endpoint path to its
entry, embedded as an association list. -/
abbrev CacheMap (α : Type) := List (String × CacheEntry α)

/-- Map lookup (`m[k]` with the `exists` flag). -/
def alookup {β : Type} (k : String) : List (String × β) → Option β
  | [] => none
  | (q, v) :: rest => if q = k then some v else alookup k rest

/-- Map deletion (`delete(m, k)`). -/
def aerase {β : Type} (k : String) : List (String × β) → List (String × β)
  | [] => []
  | (q, v) :: rest => if q = k then aerase k rest else (q, v) :: aerase k rest

/-- Map overwrite insertion (`m[k] = v`). -/
def ainsert {β : Type} (k : String) (v : β) (m : List (String × β)) : List (String × β) :=
  (k, v) :: aerase k m

/-- In-place mutation of the value stored under `k` (the Go code mutates
the `*CacheEntry` pointer held by the map, leaving the map structure and
all other entries untouched). -/
def aupdate {β : Type} (k : String) (f : β → β) : List (String × β) → List (String × β)
  | [] => []
  | (q, v) :: rest =>
    if q = k then (q, f v) :: aupdate k f rest else (q, v) :: aupdate k f rest

/-- Result of one `c.Get(ctx, path)` round trip, after `io.ReadAll`:
either the transport failed, or a response arrived with a status code and
a body (`none` models a body whose read failed). -/
structure HttpResp where
  statusCode : Nat
  body : Option (List Nat)
deriving DecidableEq

/-- Outcome of the network call made inside `updateCache`. -/
inductive GetResult
  | fail
  | resp (r : HttpResp)
deriving DecidableEq

/-- The failure stages of `updateCache`, in source order: transport error,
non-200 status, unreadable body, `json.Unmarshal` failure. -/
inductive UpdateErr
  | fetchFailed
  | unexpectedStatus (code : Nat)
  | readBodyFailed
  | unmarshalFailed
deriving DecidableEq

/-- `updateCache` (source lines 139-167), simple decode model: fetch the
path, demand status 200, read the body, unmarshal it; on success replace
the entry's value and timestamp. Here `json.Unmarshal` is abstracted as a
pure `decode` with no effect on failure and a full overwrite on success.
By the bridge `updateCacheAlias_no_partial_writes`, this is the behavior
of the program whenever the decoder writes nothing on failure and writes
the whole value on success; `updateCacheAlias` below drops that
restriction and models the in-place decode faithfully. -/
def updateCache {α : Type} (decode : List Nat → Option α) (cache : CacheMap α)
    (g : GetResult) (now : Int) (path : String) : CacheMap α × Option UpdateErr :=
  match g with
  | .fail => (cache, some .fetchFailed)
  | .resp r =>
    if r.statusCode ≠ 200 then (cache, some (.unexpectedStatus r.statusCode))
    else
      match r.body with
      | none => (cache, some .readBodyFailed)
      | some bytes =>
        match decode bytes with
        | none => (cache, some .unmarshalFailed)
        | some v =>
          (aupdate path (fun e => { e with data := v, updatedAt := now }) cache, none)

/-- `updateCache` (source lines 139-167), refined with the in-place
`json.Unmarshal` aliasing. `SetupCachedEndpoint` stores the caller's
`result` pointer as `entry.Data` (line 54), and every refresh passes that
same pointer to `json.Unmarshal(body, result)` (line 155), which decodes
*into* the object — writing whatever fields it can even when it returns
an error (a valid-JSON payload of the wrong shape yields an
`UnmarshalTypeError` after the well-typed fields were already written).
So the decode step mutates the cached value directly, before the write
lock; the lock-guarded section (lines 159-164) then only re-assigns the
same pointer to `entry.Data` and, the refresh having succeeded, stamps
`entry.UpdatedAt`. `decodeInto bytes` gives the transformation
`json.Unmarshal` applies to the pointee's current contents together with
its success flag (a syntax-invalid, empty or truncated payload is
rejected by `checkValid` before anything is written, i.e. its
transformation is the identity). -/
def updateCacheAlias {α : Type} (decodeInto : List Nat → (α → α) × Bool)
    (cache : CacheMap α) (g : GetResult) (now : Int) (path : String) :
    CacheMap α × Option UpdateErr :=
  match g with
  | .fail => (cache, some .fetchFailed)
  | .resp r =>
    if r.statusCode ≠ 200 then (cache, some (.unexpectedStatus r.statusCode))
    else
      match r.body with
      | none => (cache, some .readBodyFailed)
      | some bytes =>
        let w := decodeInto bytes
        let cache2 := aupdate path (fun e => { e with data := w.1 e.data }) cache
        if w.2 then
          (aupdate path (fun e => { e with updatedAt := now }) cache2, none)
        else
          (cache2, some .unmarshalFailed)

/-- A concrete `json.Unmarshal` collaborator over `Nat` payload values:
`[0]` is a syntax-invalid body (rejected before anything is written),
`[1, 2]` is valid JSON of the wrong shape — think destination
`struct { A int; B string }` and payload `{"A":99,"B":5}`, where field
`A` is written before the type error on `B` is reported — and anything
else decodes successfully to its first byte. -/
def partialDecode : List Nat → (Nat → Nat) × Bool :=
  fun bs =>
    if bs = [0] then (fun a => a, false)
    else if bs = [1, 2] then (fun _ => 99, false)
    else (fun _ => bs.headD 0, true)

/-- Errors returned by `GetCached`. -/
inductive ReadErr
  | noEntry (path : String)
  | expired (path : String)
deriving DecidableEq

/-- `GetCached` (source lines 198-212): look the entry up under the read
lock; report a missing entry; an entry whose age (`time.Since`) strictly
exceeds its expiration is returned together with the expiration error;
otherwise the value is returned with no error. -/
def GetCached {α : Type} (cache : CacheMap α) (now : Int) (path : String) :
    Option α × Option ReadErr :=
  match alookup path cache with
  | none => (none, some (.noEntry path))
  | some e =>
    if timeSub now e.updatedAt > e.expiration then (some e.data, some (.expired path))
    else (some e.data, none)

/-- Errors returned by `GetCachedOrFetch`. -/
inductive OrFetchErr
  | noEntry (path : String)
  | fetchFresh (e : UpdateErr)
deriving DecidableEq

/-- `GetCachedOrFetch` (source lines 170-195). Returns the possibly
updated cache, the value, the error, and whether a network fetch was
performed (the function calls `updateCache`, with the caller's context,
at most once: exactly when the entry was never populated or is expired). -/
def GetCachedOrFetch {α : Type} (decode : List Nat → Option α) (cache : CacheMap α)
    (g : GetResult) (now : Int) (path : String) :
    CacheMap α × Option α × Option OrFetchErr × Bool :=
  match alookup path cache with
  | none => (cache, none, some (.noEntry path), false)
  | some entry =>
    if entry.updatedAt = 0 ∨ timeSub now entry.updatedAt > entry.expiration then
      match updateCache decode cache g now path with
      | (cache2, some e) => (cache2, none, some (.fetchFresh e), true)
      | (cache2, none) => (cache2, (alookup path cache2).map (fun e => e.data), none, true)
    else (cache, some entry.data, none, false)

/-- The `CacheConfig` struct. -/
structure CacheConfig where
  path : String
  cronSpec : String
  expiration : Int
  skipInitialFetch : Bool
deriving DecidableEq

/-- Which context a network round trip ran under: the caller's context
(`Register`'s initial fetch, `GetCachedOrFetch`'s on-demand refresh) or
the scheduler's own 10-second background context (`updateFunc`). -/
inductive CtxTag
  | caller
  | background
deriving DecidableEq

/-- The two scheduling mechanisms a registration can end up with:
a dedicated `time.Ticker` loop goroutine, or a job added to the shared
`cron` evaluator. -/
inductive TaskKind
  | tickerLoop (tickerId : Nat)
  | cronJob
deriving DecidableEq

/-- One background refresh activity created by `SetupCachedEndpoint`:
its endpoint path, the stop channel the `updateFunc` closure captured,
and its scheduling mechanism. Tasks are never removed from the model;
a task whose channel is closed (or whose trigger source is stopped)
simply never refreshes again. -/
structure BgTask where
  path : String
  chanId : Nat
  kind : TaskKind
deriving DecidableEq

/-- The full `CachedClient` state: the entry map, the `stopChans` map
(path to the id of its current stop channel), the set of closed channel
ids, the `ticker` map, the set of stopped tickers, all spawned background
tasks, whether the shared cron scheduler is running, and a log of every
network round trip (path and context kind, in order). -/
structure ClientState (α : Type) where
  cache : CacheMap α
  stopChans : List (String × Nat)
  nextChan : Nat
  closed : List Nat
  tickers : List (String × Nat)
  nextTicker : Nat
  stoppedTickers : List Nat
  tasks : List BgTask
  cronRunning : Bool
  fetchLog : List (String × CtxTag)
deriving DecidableEq

/-- `NewCachedClient`: empty maps, fresh (not yet started) cron. -/
def initState {α : Type} : ClientState α :=
  { cache := [], stopChans := [], nextChan := 0, closed := [], tickers := [],
    nextTicker := 0, stoppedTickers := [], tasks := [], cronRunning := false,
    fetchLog := [] }

/-- External collaborators used while resolving a schedule expression:
Go's `time.ParseDuration` (nanoseconds on success) and the acceptance
test of the third-party `cron.AddFunc` parser. -/
structure SchedEnv where
  parseDuration : String → Option Int
  cronSpecOk : String → Bool

/-- The error cases of `SetupCachedEndpoint`, in source order: a wrapped
initial-refresh failure ("initial cache update failed"), a bad duration
inside `@every` ("invalid duration in @every"), and a cron spec the
evaluator rejects ("failed to schedule cache updates"). -/
inductive SetupErr
  | initialUpdate (e : UpdateErr)
  | invalidDuration
  | scheduleFailed
deriving DecidableEq

/-- Go `strings.HasPrefix s p`, on the character lists of the strings. -/
def hasPrefixStr (s p : String) : Bool := p.data.isPrefixOf s.data

/-- Go `strings.TrimPrefix` once the prefix length is known: drop the
first `n` characters (`"@every "` is ASCII, so its 7 bytes are 7
characters). -/
def dropStr (s : String) (n : Nat) : String := String.mk (s.data.drop n)

/-- Source lines 110-116: `cron.AddFunc` followed by `cron.Start()` on
success; a rejected spec returns the schedule error. -/
def addCron {α : Type} (env : SchedEnv) (st : ClientState α) (cfg : CacheConfig)
    (cid : Nat) : ClientState α × Option SetupErr :=
  if env.cronSpecOk cfg.cronSpec then
    ({ st with tasks := st.tasks ++ [{ path := cfg.path, chanId := cid, kind := .cronJob }],
               cronRunning := true }, none)
  else (st, some .scheduleFailed)

/-- Source lines 84-116: if the spec starts with `"@every "`, parse the
remainder as a duration; a parse failure is an error; a duration below
one minute starts a dedicated ticker loop (overwriting, without stopping,
any ticker previously mapped for the path) and returns; every other case
— including `@every` with a duration of a minute or more — falls through
to the shared cron evaluator. -/
def scheduleUpdates {α : Type} (env : SchedEnv) (st : ClientState α) (cfg : CacheConfig)
    (cid : Nat) : ClientState α × Option SetupErr :=
  if hasPrefixStr cfg.cronSpec "@every " then
    match env.parseDuration (dropStr cfg.cronSpec 7) with
    | none => (st, some .invalidDuration)
    | some d =>
      if d < minuteNs then
        ({ st with tickers := ainsert cfg.path st.nextTicker st.tickers,
                   nextTicker := st.nextTicker + 1,
                   tasks := st.tasks ++ [{ path := cfg.path, chanId := cid,
                                           kind := .tickerLoop st.nextTicker }] }, none)
      else addCron env st cfg cid
  else addCron env st cfg cid

/-- The entry created at the top of `SetupCachedEndpoint`: the caller's
destination value with the zero-time sentinel, forcing the first fetch. -/
def entry0 {α : Type} (init : α) (exp : Int) : CacheEntry α :=
  { data := init, updatedAt := 0, expiration := exp }

/-- `SetupCachedEndpoint` (source lines 50-117): optimistically create
the entry with the zero-time sentinel; create a fresh stop channel,
overwriting (without closing) any previous one for the path; unless
`skipInitialFetch`, run one synchronous `updateCache` with the caller's
context, returning its wrapped error on failure; finally resolve the
schedule and install the background task. -/
def doSetup {α : Type} (env : SchedEnv) (decode : List Nat → Option α)
    (st : ClientState α) (cfg : CacheConfig) (init : α) (g : GetResult) (now : Int) :
    ClientState α × Option SetupErr :=
  let st1 := { st with cache := ainsert cfg.path (entry0 init cfg.expiration) st.cache }
  let cid := st1.nextChan
  let st2 := { st1 with stopChans := ainsert cfg.path cid st1.stopChans,
                        nextChan := cid + 1 }
  if cfg.skipInitialFetch then scheduleUpdates env st2 cfg cid
  else
    match updateCache decode st2.cache g now cfg.path with
    | (cache2, some e) =>
      ({ st2 with cache := cache2,
                  fetchLog := st2.fetchLog ++ [(cfg.path, .caller)] },
       some (.initialUpdate e))
    | (cache2, none) =>
      scheduleUpdates env
        { st2 with cache := cache2,
                   fetchLog := st2.fetchLog ++ [(cfg.path, .caller)] } cfg cid

/-- `StopCacheUpdates` (source lines 215-220): if the path has a current
stop channel, close it and remove it from the map; otherwise do nothing. -/
def doStopKey {α : Type} (st : ClientState α) (path : String) : ClientState α :=
  match alookup path st.stopChans with
  | some cid => { st with closed := cid :: st.closed,
                          stopChans := aerase path st.stopChans }
  | none => st

/-- `Stop` (source lines 119-136): stop every ticker currently mapped,
close every stop channel currently mapped (via `StopCacheUpdates`),
then stop the shared cron scheduler. -/
def doStop {α : Type} (st : ClientState α) : ClientState α :=
  { st with stoppedTickers := st.tickers.map (fun p => p.2) ++ st.stoppedTickers,
            closed := st.stopChans.map (fun p => p.2) ++ st.closed,
            stopChans := [],
            cronRunning := false }

/-- Whether background task `t` can still be triggered: a ticker loop
fires while its ticker has not been stopped; a cron job fires while the
shared cron scheduler is running. -/
def canFire {α : Type} (st : ClientState α) (t : BgTask) : Prop :=
  match t.kind with
  | .tickerLoop tid => tid ∉ st.stoppedTickers
  | .cronJob => st.cronRunning = true

instance {α : Type} (st : ClientState α) (t : BgTask) : Decidable (canFire st t) := by
  unfold canFire
  cases t.kind with
  | tickerLoop tid => exact inferInstanceAs (Decidable (tid ∉ st.stoppedTickers))
  | cronJob => exact inferInstanceAs (Decidable (st.cronRunning = true))

/-- One scheduled trigger of background task `i` (source lines 63-74 and
95-105): the `updateFunc` closure first checks its captured stop channel
and does nothing if it is closed; otherwise it runs `updateCache` under
its own 10-second background context, ignoring any refresh error. -/
def fireTask {α : Type} (decode : List Nat → Option α) (st : ClientState α) (i : Nat)
    (g : GetResult) (now : Int) : ClientState α :=
  match st.tasks[i]? with
  | none => st
  | some t =>
    if canFire st t then
      if t.chanId ∈ st.closed then st
      else
        { st with cache := (updateCache decode st.cache g now t.path).1,
                  fetchLog := st.fetchLog ++ [(t.path, .background)] }
    else st

/-- A foreground `GetCachedOrFetch` call as a state transition: it may
update the cache and, when it fetched, logs one caller-context round
trip. -/
def doGetOrFetch {α : Type} (decode : List Nat → Option α) (st : ClientState α)
    (g : GetResult) (now : Int) (path : String) :
    ClientState α × Option α × Option OrFetchErr :=
  match GetCachedOrFetch decode st.cache g now path with
  | (cache2, v, err, fetched) =>
    ({ st with cache := cache2,
               fetchLog := if fetched then st.fetchLog ++ [(path, .caller)]
                           else st.fetchLog }, v, err)

/-- One observable API event of a `CachedClient`. -/
inductive Step {α : Type} (env : SchedEnv) (decode : List Nat → Option α) :
    ClientState α → ClientState α → Prop
  | setup (st : ClientState α) (cfg : CacheConfig) (init : α) (g : GetResult) (now : Int) :
      Step env decode st (doSetup env decode st cfg init g now).1
  | stopKey (st : ClientState α) (path : String) :
      Step env decode st (doStopKey st path)
  | stopAll (st : ClientState α) :
      Step env decode st (doStop st)
  | fire (st : ClientState α) (i : Nat) (g : GetResult) (now : Int) :
      Step env decode st (fireTask decode st i g now)
  | orFetch (st : ClientState α) (g : GetResult) (now : Int) (path : String) :
      Step env decode st (doGetOrFetch decode st g now path).1

/-- States reachable from a fresh `NewCachedClient`. -/
inductive Reaches {α : Type} (env : SchedEnv) (decode : List Nat → Option α) :
    ClientState α → Prop
  | init : Reaches env decode initState
  | step {st st2 : ClientState α} :
      Reaches env decode st → Step env decode st st2 → Reaches env decode st2

/-- Channel-bookkeeping invariant: closed ids and currently mapped ids
stay below the allocation counter, a currently mapped channel is never
already closed, and distinct paths never share a channel. -/
def wf {α : Type} (st : ClientState α) : Prop :=
  (∀ c ∈ st.closed, c < st.nextChan) ∧
  (∀ pr ∈ st.stopChans, pr.2 < st.nextChan ∧ pr.2 ∉ st.closed) ∧
  (∀ pr qr, pr ∈ st.stopChans → qr ∈ st.stopChans → pr.2 = qr.2 → pr.1 = qr.1)

/-- Every background task's captured stop channel is either already
closed or is the channel currently registered for the task's path. This
holds for every client that never re-registers a path whose previous
registration is still live (re-registering overwrites `stopChans` without
closing the old channel, orphaning the old task). -/
def goodTasks {α : Type} (st : ClientState α) : Prop :=
  ∀ t ∈ st.tasks, t.chanId ∈ st.closed ∨ alookup t.path st.stopChans = some t.chanId

/-- Whether `SetupCachedEndpoint`'s scheduling section accepts the given
schedule expression (mirrors the branch structure of source lines
84-116): an `@every` spec must parse, and a sub-minute duration is always
accepted (ticker); everything else is accepted exactly when the cron
parser accepts it. -/
def schedAccepts (env : SchedEnv) (spec : String) : Bool :=
  if hasPrefixStr spec "@every " then
    match env.parseDuration (dropStr spec 7) with
    | none => false
    | some d => if d < minuteNs then true else env.cronSpecOk spec
  else env.cronSpecOk spec

/-- Duration parser used in the concrete runs: accepts exactly `"1s"`,
like `time.ParseDuration`; the cron parser rejects everything. -/
def tickerEnv : SchedEnv :=
  { parseDuration := fun s => if s = "1s" then some 1000000000 else none,
    cronSpecOk := fun _ => false }

/-- Decoder used in the concrete runs: the first byte of the body. -/
def headDecode : List Nat → Option Nat := fun bs => bs.head?

/-- A sub-minute `@every` registration for `"/k"` with a one-minute
freshness window, skipping the initial fetch. -/
def tickerCfg : CacheConfig :=
  { path := "/k", cronSpec := "@every 1s", expiration := 60000000000,
    skipInitialFetch := true }

/-- A client with one live registration for `"/k"` (ticker task 0 on stop
channel 0). -/
def regOnce : ClientState Nat :=
  (doSetup tickerEnv headDecode initState tickerCfg 0 .fail 0).1

/-- The same path registered a second time while the first registration
is still live: `stopChans` and the ticker map now hold only the second
registration's channel 1 and ticker 1, while the first ticker task keeps
running with its orphaned, never-closed channel 0 and never-stopped
ticker 0. -/
def regTwice : ClientState Nat :=
  (doSetup tickerEnv headDecode regOnce tickerCfg 0 .fail 0).1

/-- Client state after `SetupCachedEndpoint` created the sentinel entry
and the fresh stop channel, before any fetch or scheduling. -/
def skipState {α : Type} (st : ClientState α) (cfg : CacheConfig) (init : α) :
    ClientState α :=
  { st with cache := ainsert cfg.path (entry0 init cfg.expiration) st.cache,
            stopChans := ainsert cfg.path st.nextChan st.stopChans,
            nextChan := st.nextChan + 1 }

/-- Like `skipState`, but after a failed mandatory initial fetch: the
round trip is logged, the sentinel entry is untouched. -/
def failState {α : Type} (st : ClientState α) (cfg : CacheConfig) (init : α) :
    ClientState α :=
  { st with cache := ainsert cfg.path (entry0 init cfg.expiration) st.cache,
            stopChans := ainsert cfg.path st.nextChan st.stopChans,
            nextChan := st.nextChan + 1,
            fetchLog := st.fetchLog ++ [(cfg.path, .caller)] }

/-- Like `skipState`, but after a successful mandatory initial fetch. -/
def okState {α : Type} (decode : List Nat → Option α) (st : ClientState α)
    (cfg : CacheConfig) (init : α) (g : GetResult) (now : Int) : ClientState α :=
  { st with cache := (updateCache decode
                (ainsert cfg.path (entry0 init cfg.expiration) st.cache) g now cfg.path).1,
            stopChans := ainsert cfg.path st.nextChan st.stopChans,
            nextChan := st.nextChan + 1,
            fetchLog := st.fetchLog ++ [(cfg.path, .caller)] }

/-- A schedule environment whose cron parser accepts everything (the
duration parser is irrelevant for plain cron specs). -/
def anyCronEnv : SchedEnv :=
  { parseDuration := fun _ => none, cronSpecOk := fun _ => true }

/-- A skip-initial-fetch registration whose freshness window is the
maximum `time.Duration`. -/
def maxWinCfg : CacheConfig :=
  { path := "/k", cronSpec := "*/15 * * * *", expiration := maxDuration,
    skipInitialFetch := true }

/-- A skip-initial-fetch registration whose `@every` duration does not
parse. -/
def bogusCfg : CacheConfig :=
  { path := "/k", cronSpec := "@every bogus", expiration := 60000000000,
    skipInitialFetch := true }

/-- `tickerCfg` with the mandatory initial fetch enabled. -/
def fetchCfg : CacheConfig :=
  { path := "/k", cronSpec := "@every 1s", expiration := 60000000000,
    skipInitialFetch := false }

/-- A decoder that rejects every payload (`json.Unmarshal` failing on a
malformed body). -/
def badDecode : List Nat → Option Nat := fun _ => none

/-- An environment for C7's concrete runs: the duration parser accepts
`"1s"` and `"90s"` (the latter at or above a minute), the cron parser
accepts exactly the five-field spec and the long `@every` spec. -/
def mixedEnv : SchedEnv :=
  { parseDuration := fun s =>
      if s = "1s" then some 1000000000
      else if s = "90s" then some 90000000000
      else none,
    cronSpecOk := fun s => s == "*/15 * * * *" || s == "@every 90s" }

/-- A plain five-field cron registration. -/
def cronCfg : CacheConfig :=
  { path := "/k", cronSpec := "*/15 * * * *", expiration := 60000000000,
    skipInitialFetch := true }

/-- An `@every` registration with a duration of ninety seconds. -/
def longEveryCfg : CacheConfig :=
  { path := "/k", cronSpec := "@every 90s", expiration := 60000000000,
    skipInitialFetch := true }

/-- A cron spec the evaluator rejects. -/
def rejectedCfg : CacheConfig :=
  { path := "/k", cronSpec := "not a cron spec", expiration := 60000000000,
    skipInitialFetch := true }

/-- `rejectedCfg` with the mandatory initial fetch enabled. -/
def rejectedFetchCfg : CacheConfig :=
  { path := "/k", cronSpec := "not a cron spec", expiration := 60000000000,
    skipInitialFetch := false }

/-- The shared state seen by concurrent `GetCachedOrFetch` callers of one
registered key: the entry's fields (mutated in place by `updateCache`
under the write lock) and the number of network fetches performed. -/
structure FetchRace (α : Type) where
  data : α
  updatedAt : Int
  expiration : Int
  fetchCount : Nat
deriving DecidableEq

/-- One `GetCachedOrFetch` caller, by program counter: `0` — about to
read the entry and compute `needsFetch` (source lines 171-181); `1` —
decided to fetch, about to run `updateCache` (lines 183-186); `2` —
about to re-read the entry and return its data (lines 188-194); `3` —
returned, `ret` holding the value. -/
structure RaceCaller (α : Type) where
  pc : Nat
  ret : Option α
deriving DecidableEq

/-- The staleness test of `GetCachedOrFetch` line 181 against the shared
entry. -/
def needsFetchAt {α : Type} (now : Int) (g : FetchRace α) : Prop :=
  g.updatedAt = 0 ∨ timeSub now g.updatedAt > g.expiration

instance {α : Type} (now : Int) (g : FetchRace α) : Decidable (needsFetchAt now g) :=
  inferInstanceAs (Decidable (g.updatedAt = 0 ∨ timeSub now g.updatedAt > g.expiration))

/-- One atomic step of one caller. The fetch step models a successful
`updateCache`: `newVal k` is the value decoded by the `k`-th network
round trip, and the locked write sets data and timestamp together. There
is no single-flight coordination between the staleness check (pc `0`) and
the fetch (pc `1`) — exactly as in the source. -/
def raceFetched {α : Type} (newVal : Nat → α) (now : Int) (g : FetchRace α) :
    FetchRace α :=
  { g with data := newVal g.fetchCount, updatedAt := now,
           fetchCount := g.fetchCount + 1 }

def raceStep {α : Type} (newVal : Nat → α) (now : Int) (g : FetchRace α)
    (c : RaceCaller α) : FetchRace α × RaceCaller α :=
  match c.pc with
  | 0 => if needsFetchAt now g then (g, { c with pc := 1 }) else (g, { c with pc := 2 })
  | 1 => (raceFetched newVal now g, { c with pc := 2 })
  | 2 => (g, { c with pc := 3, ret := some g.data })
  | _ => (g, c)

/-- Run an interleaving: each element of the schedule advances the caller
with that index by one step (out-of-range indices are skipped). -/
def raceRun {α : Type} (newVal : Nat → α) (now : Int) :
    List Nat → FetchRace α × List (RaceCaller α) → FetchRace α × List (RaceCaller α)
  | [], s => s
  | i :: rest, s =>
    match s.2[i]? with
    | none => raceRun newVal now rest s
    | some c =>
      raceRun newVal now rest
        ((raceStep newVal now s.1 c).1, s.2.set i (raceStep newVal now s.1 c).2)

theorem alookup_ainsert_self {β : Type} (k : String) (v : β) (m : List (String × β)) :
    alookup k (ainsert k v m) = some v := by
  simp [ainsert, alookup]

theorem alookup_aerase {β : Type} (k q : String) (m : List (String × β)) :
    alookup q (aerase k m) = if q = k then none else alookup q m := by
  induction m with
  | nil => simp [aerase, alookup]
  | cons hd tl ih =>
    obtain ⟨a, b⟩ := hd
    by_cases h1 : a = k
    · rw [aerase, if_pos h1, ih]
      by_cases hq : q = k
      · simp [hq]
      · have haq : ¬a = q := fun hh => hq (hh ▸ h1)
        simp [hq, alookup, haq]
    · rw [aerase, if_neg h1]
      by_cases h2 : a = q
      · have hqk : ¬q = k := fun hh => h1 (h2.trans hh)
        simp [alookup, h2, hqk]
      · simp [alookup, h2, ih]

theorem alookup_ainsert_ne {β : Type} (k q : String) (v : β) (m : List (String × β))
    (h : q ≠ k) : alookup q (ainsert k v m) = alookup q m := by
  have hkq : ¬k = q := fun hh => h hh.symm
  simp [ainsert, alookup, hkq, alookup_aerase, h]

theorem alookup_aupdate_self {β : Type} (k : String) (f : β → β) (m : List (String × β)) :
    alookup k (aupdate k f m) = (alookup k m).map f := by
  induction m with
  | nil => simp [aupdate, alookup]
  | cons hd tl ih =>
    obtain ⟨a, b⟩ := hd
    by_cases h : a = k
    · rw [aupdate, if_pos h]
      simp [alookup, h, ih]
    · rw [aupdate, if_neg h]
      simp [alookup, h, ih]

theorem alookup_aupdate_ne {β : Type} (k q : String) (f : β → β) (m : List (String × β))
    (h : q ≠ k) : alookup q (aupdate k f m) = alookup q m := by
  induction m with
  | nil => simp [aupdate]
  | cons hd tl ih =>
    obtain ⟨a, b⟩ := hd
    by_cases h1 : a = k
    · rw [aupdate, if_pos h1]
      have haq : ¬a = q := fun hh => h ((hh.symm).trans h1)
      simp [alookup, haq, ih]
    · rw [aupdate, if_neg h1]
      by_cases h2 : a = q
      · simp [alookup, h2]
      · simp [alookup, h2, ih]

theorem updateCache_fail_eq {α : Type} (decode : List Nat → Option α) (cache : CacheMap α)
    (g : GetResult) (now : Int) (path : String) (e : UpdateErr)
    (h : (updateCache decode cache g now path).2 = some e) :
    (updateCache decode cache g now path).1 = cache := by
  cases g with
  | fail => rfl
  | resp r =>
    by_cases hs : r.statusCode ≠ 200
    · simp [updateCache, hs]
    · cases hb : r.body with
      | none => simp [updateCache, hs, hb]
      | some bytes =>
        cases hd : decode bytes with
        | none => simp [updateCache, hs, hb, hd]
        | some v => simp [updateCache, hs, hb, hd] at h

theorem updateCache_ok {α : Type} (decode : List Nat → Option α) (cache : CacheMap α)
    (g : GetResult) (now : Int) (path : String)
    (h : (updateCache decode cache g now path).2 = none) :
    ∃ r bytes v, g = .resp r ∧ r.statusCode = 200 ∧ r.body = some bytes ∧
      decode bytes = some v ∧
      (updateCache decode cache g now path).1 =
        aupdate path (fun e => { e with data := v, updatedAt := now }) cache := by
  cases g with
  | fail => simp [updateCache] at h
  | resp r =>
    by_cases hs : r.statusCode ≠ 200
    · simp [updateCache, hs] at h
    · cases hb : r.body with
      | none => simp [updateCache, hs, hb] at h
      | some bytes =>
        cases hd : decode bytes with
        | none => simp [updateCache, hs, hb, hd] at h
        | some v =>
          refine ⟨r, bytes, v, rfl, by omega, hb, hd, ?_⟩
          simp [updateCache, hs, hb, hd]

theorem updateCache_ok_lookup {α : Type} (decode : List Nat → Option α) (cache : CacheMap α)
    (g : GetResult) (now : Int) (path : String) (e0 : CacheEntry α)
    (hlk : alookup path cache = some e0)
    (h : (updateCache decode cache g now path).2 = none) :
    ∃ v, alookup path (updateCache decode cache g now path).1 =
      some { data := v, updatedAt := now, expiration := e0.expiration } := by
  obtain ⟨r, bytes, v, _, _, _, _, hcache⟩ := updateCache_ok decode cache g now path h
  refine ⟨v, ?_⟩
  rw [hcache, alookup_aupdate_self, hlk]
  rfl

theorem aupdate_congr_id {β : Type} (k : String) (f : β → β) (m : List (String × β))
    (hf : ∀ v, f v = v) : aupdate k f m = m := by
  induction m with
  | nil => rfl
  | cons hd tl ih =>
    obtain ⟨a, b⟩ := hd
    by_cases h : a = k
    · rw [aupdate, if_pos h, hf b, ih]
    · rw [aupdate, if_neg h, ih]

theorem aupdate_aupdate {β : Type} (k : String) (f f2 : β → β) (m : List (String × β)) :
    aupdate k f (aupdate k f2 m) = aupdate k (fun v => f (f2 v)) m := by
  induction m with
  | nil => rfl
  | cons hd tl ih =>
    obtain ⟨a, b⟩ := hd
    by_cases h : a = k
    · rw [aupdate, if_pos h, aupdate, if_pos h, aupdate, if_pos h, ih]
    · rw [aupdate, if_neg h, aupdate, if_neg h, aupdate, if_neg h, ih]

/-- The simple decode model is the special case of the aliasing model for
a decoder that writes nothing on failure and overwrites the whole value
on success: under those two assumptions the refined `updateCacheAlias`
and the simple `updateCache` agree exactly. -/
theorem updateCacheAlias_no_partial_writes {α : Type}
    (decodeInto : List Nat → (α → α) × Bool) (decode : List Nat → Option α)
    (hfail : ∀ bytes, decode bytes = none →
      (decodeInto bytes).2 = false ∧ ∀ a, (decodeInto bytes).1 a = a)
    (hok : ∀ bytes v, decode bytes = some v →
      (decodeInto bytes).2 = true ∧ ∀ a, (decodeInto bytes).1 a = v)
    (cache : CacheMap α) (g : GetResult) (now : Int) (path : String) :
    updateCacheAlias decodeInto cache g now path = updateCache decode cache g now path := by
  cases g with
  | fail => rfl
  | resp r =>
    by_cases hs : r.statusCode ≠ 200
    · simp [updateCacheAlias, updateCache, hs]
    · cases hb : r.body with
      | none => simp [updateCacheAlias, updateCache, hs, hb]
      | some bytes =>
        cases hd : decode bytes with
        | none =>
          obtain ⟨h2, hid⟩ := hfail bytes hd
          have hcong : aupdate path
              (fun e : CacheEntry α => { e with data := (decodeInto bytes).1 e.data }) cache
              = cache := by
            apply aupdate_congr_id
            intro e
            rw [hid e.data]
          simp [updateCacheAlias, updateCache, hs, hb, hd, h2, hcong]
        | some v =>
          obtain ⟨h2, hv⟩ := hok bytes v hd
          have hcomp : aupdate path (fun e : CacheEntry α => { e with updatedAt := now })
              (aupdate path (fun e : CacheEntry α => { e with data := (decodeInto bytes).1 e.data }) cache)
              = aupdate path (fun e : CacheEntry α => { e with data := v, updatedAt := now }) cache := by
            rw [aupdate_aupdate]
            congr 1
            funext e
            rw [hv e.data]
          simp [updateCacheAlias, updateCache, hs, hb, hd, h2, hcomp]

/-- Counterexample to claim C2 as stated: the refresh fails (the payload
is valid JSON of the wrong shape, so `json.Unmarshal` reports an error),
yet the store entry's value *changes* from `5` to the partially decoded
`99` — because the decode target is the very object `entry.Data` points
to — while `updatedAt` keeps its old value `100`. The claim demands that
a failed refresh leave the value unchanged and that value and timestamp
only ever be written together under the lock. -/
theorem c2_counterexample :
    (updateCacheAlias partialDecode [("/k", (⟨5, 100, 1000⟩ : CacheEntry Nat))]
        (.resp ⟨200, some [1, 2]⟩) 900 "/k").2 = some .unmarshalFailed ∧
    (updateCacheAlias partialDecode [("/k", (⟨5, 100, 1000⟩ : CacheEntry Nat))]
        (.resp ⟨200, some [1, 2]⟩) 900 "/k").1 = [("/k", ⟨99, 100, 1000⟩)] := by
  exact ⟨by decide, by decide⟩

/-- Claim C2 (amended): a refresh that fails at the transport, status or
body-read stage leaves the store entirely unchanged, and so does a decode
failure whose decoder writes nothing (syntax-invalid, empty or truncated
JSON is rejected before any field is written). `updatedAt` is set only by
a successful refresh: every failure preserves the entry's timestamp and
freshness window. But because `json.Unmarshal` decodes in place into the
object aliased by `entry.Data`, a valid-JSON wrong-shape payload can
partially overwrite the cached *value* even though the refresh fails (see
the counterexample), and the payload is written into that shared object
before the write lock — only the pointer re-assignment and the timestamp
stamp happen under the lock. On success the entry holds the decoded
contents with `updatedAt = now`; entries of other keys never change. -/
theorem c2_failed_refresh_amended {α : Type} (decodeInto : List Nat → (α → α) × Bool)
    (cache : CacheMap α) (g : GetResult) (now : Int) (path : String) :
    (∀ e : UpdateErr, (updateCacheAlias decodeInto cache g now path).2 = some e →
        e ≠ .unmarshalFailed →
        (updateCacheAlias decodeInto cache g now path).1 = cache) ∧
    (∀ r bytes, g = .resp r → r.statusCode = 200 → r.body = some bytes →
        (decodeInto bytes).2 = false → (∀ a, (decodeInto bytes).1 a = a) →
        (updateCacheAlias decodeInto cache g now path).1 = cache) ∧
    (∀ err e0, (updateCacheAlias decodeInto cache g now path).2 = some err →
        alookup path cache = some e0 →
        ∃ d, alookup path (updateCacheAlias decodeInto cache g now path).1
          = some { data := d, updatedAt := e0.updatedAt, expiration := e0.expiration }) ∧
    (∀ r bytes e0, g = .resp r → r.statusCode = 200 → r.body = some bytes →
        (decodeInto bytes).2 = true → alookup path cache = some e0 →
        (updateCacheAlias decodeInto cache g now path).2 = none ∧
        alookup path (updateCacheAlias decodeInto cache g now path).1
          = some { data := (decodeInto bytes).1 e0.data, updatedAt := now,
                   expiration := e0.expiration }) ∧
    (∀ q, q ≠ path → alookup q (updateCacheAlias decodeInto cache g now path).1
        = alookup q cache) := by
  refine ⟨?_, ?_, ?_, ?_, ?_⟩
  · intro e he hne
    cases g with
    | fail => rfl
    | resp r =>
      by_cases hs : r.statusCode ≠ 200
      · simp [updateCacheAlias, hs]
      · cases hb : r.body with
        | none => simp [updateCacheAlias, hs, hb]
        | some bytes =>
          by_cases hw : (decodeInto bytes).2 = true
          · simp [updateCacheAlias, hs, hb, hw] at he
          · have hw2 : (decodeInto bytes).2 = false := by
              revert hw
              cases (decodeInto bytes).2 <;> simp
            simp [updateCacheAlias, hs, hb, hw2] at he
            exact absurd he.symm hne
  · intro r bytes hg hs hb hw hid
    subst hg
    have hcong : aupdate path
        (fun e : CacheEntry α => { e with data := (decodeInto bytes).1 e.data }) cache
        = cache := by
      apply aupdate_congr_id
      intro e
      rw [hid e.data]
    simp [updateCacheAlias, hs, hb, hw, hcong]
  · intro err e0 herr hlk
    cases g with
    | fail =>
      exact ⟨e0.data, by simpa [updateCacheAlias] using hlk⟩
    | resp r =>
      by_cases hs : r.statusCode ≠ 200
      · refine ⟨e0.data, ?_⟩
        simpa [updateCacheAlias, hs] using hlk
      · cases hb : r.body with
        | none =>
          refine ⟨e0.data, ?_⟩
          simpa [updateCacheAlias, hs, hb] using hlk
        | some bytes =>
          by_cases hw : (decodeInto bytes).2 = true
          · simp [updateCacheAlias, hs, hb, hw] at herr
          · have hw2 : (decodeInto bytes).2 = false := by
              revert hw
              cases (decodeInto bytes).2 <;> simp
            refine ⟨(decodeInto bytes).1 e0.data, ?_⟩
            simp [updateCacheAlias, hs, hb, hw2, alookup_aupdate_self, hlk]
  · intro r bytes e0 hg hs hb hw hlk
    subst hg
    constructor
    · simp [updateCacheAlias, hs, hb, hw]
    · simp [updateCacheAlias, hs, hb, hw, alookup_aupdate_self, hlk]
  · intro q hq
    cases g with
    | fail => rfl
    | resp r =>
      by_cases hs : r.statusCode ≠ 200
      · simp [updateCacheAlias, hs]
      · cases hb : r.body with
        | none => simp [updateCacheAlias, hs, hb]
        | some bytes =>
          by_cases hw : (decodeInto bytes).2 = true
          · simp [updateCacheAlias, hs, hb, hw, alookup_aupdate_ne _ _ _ _ hq]
          · have hw2 : (decodeInto bytes).2 = false := by
              revert hw
              cases (decodeInto bytes).2 <;> simp
            simp [updateCacheAlias, hs, hb, hw2, alookup_aupdate_ne _ _ _ _ hq]

/-- Witness for the amended C2 at concrete inputs: a transport failure
and a write-nothing decode failure leave the store untouched, the
wrong-shape decode failure preserves the timestamp (while the value was
partially overwritten, per the counterexample), and a successful refresh
installs the decoded value with the new timestamp. -/
theorem c2_witness :
    ((updateCacheAlias partialDecode [("/k", (⟨5, 100, 1000⟩ : CacheEntry Nat))]
        .fail 900 "/k").1 = [("/k", ⟨5, 100, 1000⟩)]) ∧
    ((updateCacheAlias partialDecode [("/k", (⟨5, 100, 1000⟩ : CacheEntry Nat))]
        (.resp ⟨200, some [0]⟩) 900 "/k").1 = [("/k", ⟨5, 100, 1000⟩)]) ∧
    (∃ d, alookup "/k" (updateCacheAlias partialDecode
        [("/k", (⟨5, 100, 1000⟩ : CacheEntry Nat))] (.resp ⟨200, some [1, 2]⟩) 900 "/k").1
        = some { data := d, updatedAt := 100, expiration := 1000 }) ∧
    (alookup "/k" (updateCacheAlias partialDecode
        [("/k", (⟨5, 100, 1000⟩ : CacheEntry Nat))] (.resp ⟨200, some [7]⟩) 900 "/k").1
        = some { data := 7, updatedAt := 900, expiration := 1000 }) := by
  refine ⟨?_, ?_, ?_, ?_⟩
  · exact (c2_failed_refresh_amended partialDecode
      [("/k", (⟨5, 100, 1000⟩ : CacheEntry Nat))] .fail 900 "/k").1 .fetchFailed rfl
      (by decide)
  · exact (c2_failed_refresh_amended partialDecode
      [("/k", (⟨5, 100, 1000⟩ : CacheEntry Nat))] (.resp ⟨200, some [0]⟩) 900 "/k").2.1
      ⟨200, some [0]⟩ [0] rfl rfl rfl (by decide) (by intro a; rfl)
  · exact (c2_failed_refresh_amended partialDecode
      [("/k", (⟨5, 100, 1000⟩ : CacheEntry Nat))] (.resp ⟨200, some [1, 2]⟩) 900
      "/k").2.2.1 .unmarshalFailed ⟨5, 100, 1000⟩ (by decide) rfl
  · exact ((c2_failed_refresh_amended partialDecode
      [("/k", (⟨5, 100, 1000⟩ : CacheEntry Nat))] (.resp ⟨200, some [7]⟩) 900
      "/k").2.2.2.1 ⟨200, some [7]⟩ [7] ⟨5, 100, 1000⟩ rfl rfl rfl (by decide) rfl).2

/-- Claim C3 (amended): `GetCached` on a never-registered key fails with
the not-found error and returns no value; on a registered key it returns
the stored value, together with the expiration error exactly when the
saturated age `timeSub now updatedAt` strictly exceeds the freshness
window. The never-populated sentinel (`updatedAt = 0`) is reported stale
provided the freshness window is smaller than the maximum duration
(`2^63 - 1` ns) and smaller than the clock reading — not unconditionally:
`time.Since` of the zero time saturates at the maximum duration, which is
not strictly greater than a window equal to that maximum. -/
theorem c3_read_cached {α : Type} (cache : CacheMap α) (now : Int) (path : String) :
    (alookup path cache = none → GetCached cache now path = (none, some (.noEntry path))) ∧
    (∀ e : CacheEntry α, alookup path cache = some e →
        timeSub now e.updatedAt > e.expiration →
        GetCached cache now path = (some e.data, some (.expired path))) ∧
    (∀ e : CacheEntry α, alookup path cache = some e →
        timeSub now e.updatedAt ≤ e.expiration →
        GetCached cache now path = (some e.data, none)) ∧
    (∀ e : CacheEntry α, alookup path cache = some e → e.updatedAt = 0 →
        e.expiration < maxDuration → e.expiration < now →
        GetCached cache now path = (some e.data, some (.expired path))) := by
  refine ⟨?_, ?_, ?_, ?_⟩
  · intro h
    simp [GetCached, h]
  · intro e hlk hstale
    simp [GetCached, hlk, hstale]
  · intro e hlk hfresh
    simp [GetCached, hlk, not_lt.mpr hfresh]
  · intro e hlk hz hmax hnow
    have hstale : timeSub now e.updatedAt > e.expiration := by
      rw [hz]
      rw [timeSub]
      simp only [maxDuration, minDuration] at *
      split
      · omega
      · split
        · omega
        · omega
    simp [GetCached, hlk, hstale]

/-- Counterexample to claim C3 as stated: a registered, never-populated
entry (`updatedAt` is the zero-time sentinel) whose freshness window is
the maximum `time.Duration` is reported *fresh* by `GetCached` at a
realistic clock reading (2026-01-01 as nanoseconds since year 1), because
`time.Since` of the zero time saturates at the maximum duration instead
of being "infinitely stale"; the claim requires the value to come with an
`ExpiredError` here. -/
theorem c3_counterexample :
    GetCached [("/k", (⟨0, 0, maxDuration⟩ : CacheEntry Nat))]
      63902822400000000000 "/k" = (some 0, none) := by
  rfl

/-- Witness for C3 at concrete inputs: missing key, stale entry, fresh
entry, and the never-populated sentinel with a realistic window. -/
theorem c3_witness :
    (GetCached ([] : CacheMap Nat) 0 "/x" = (none, some (.noEntry "/x"))) ∧
    (GetCached [("/k", (⟨3, 100, 50⟩ : CacheEntry Nat))] 200 "/k"
      = (some 3, some (.expired "/k"))) ∧
    (GetCached [("/k", (⟨3, 100, 50⟩ : CacheEntry Nat))] 120 "/k" = (some 3, none)) ∧
    (GetCached [("/k", (⟨3, 0, 50⟩ : CacheEntry Nat))] 100 "/k"
      = (some 3, some (.expired "/k"))) := by
  refine ⟨?_, ?_, ?_, ?_⟩
  · exact (c3_read_cached ([] : CacheMap Nat) 0 "/x").1 rfl
  · exact (c3_read_cached [("/k", (⟨3, 100, 50⟩ : CacheEntry Nat))] 200 "/k").2.1
      ⟨3, 100, 50⟩ rfl (by decide)
  · exact (c3_read_cached [("/k", (⟨3, 100, 50⟩ : CacheEntry Nat))] 120 "/k").2.2.1
      ⟨3, 100, 50⟩ rfl (by decide)
  · exact (c3_read_cached [("/k", (⟨3, 0, 50⟩ : CacheEntry Nat))] 100 "/k").2.2.2
      ⟨3, 0, 50⟩ rfl rfl (by decide) (by decide)

/-- Claim C4: `GetCachedOrFetch` on a missing key fails with the
not-found error (no value, no fetch); on a stale or never-populated entry
it performs exactly one synchronous refresh — the single `updateCache`
call, run with the caller's context — and, if that refresh fails, it
propagates the wrapped fetch/decode error with no value and the cache
unchanged, while on success it returns the freshly written value; on a
fresh entry it returns the cached value with no error and no network
activity. -/
theorem c4_read_or_fetch {α : Type} (decode : List Nat → Option α) (cache : CacheMap α)
    (g : GetResult) (now : Int) (path : String) :
    (alookup path cache = none →
        GetCachedOrFetch decode cache g now path
          = (cache, none, some (.noEntry path), false)) ∧
    (∀ e : CacheEntry α, alookup path cache = some e →
        (e.updatedAt = 0 ∨ timeSub now e.updatedAt > e.expiration) →
        (∀ err, (updateCache decode cache g now path).2 = some err →
            GetCachedOrFetch decode cache g now path
              = (cache, none, some (.fetchFresh err), true)) ∧
        ((updateCache decode cache g now path).2 = none →
            ∃ v, GetCachedOrFetch decode cache g now path
                = ((updateCache decode cache g now path).1, some v, none, true) ∧
              alookup path (updateCache decode cache g now path).1
                = some { data := v, updatedAt := now, expiration := e.expiration })) ∧
    (∀ e : CacheEntry α, alookup path cache = some e → e.updatedAt ≠ 0 →
        timeSub now e.updatedAt ≤ e.expiration →
        GetCachedOrFetch decode cache g now path = (cache, some e.data, none, false)) := by
  refine ⟨?_, ?_, ?_⟩
  · intro h
    simp [GetCachedOrFetch, h]
  · intro e hlk hstale
    constructor
    · intro err herr
      have hunch : (updateCache decode cache g now path).1 = cache :=
        updateCache_fail_eq decode cache g now path err herr
      cases hu : updateCache decode cache g now path with
      | mk c2 o2 =>
        rw [hu] at herr hunch
        simp only at herr hunch
        subst herr
        subst hunch
        simp [GetCachedOrFetch, hlk, hstale, hu]
    · intro hok
      obtain ⟨v, hv⟩ := updateCache_ok_lookup decode cache g now path e hlk hok
      refine ⟨v, ?_, hv⟩
      cases hu : updateCache decode cache g now path with
      | mk c2 o2 =>
        rw [hu] at hok hv
        simp only at hok hv
        subst hok
        simp [GetCachedOrFetch, hlk, hstale, hu, hv]
  · intro e hlk hz hfresh
    have hcond : ¬(e.updatedAt = 0 ∨ timeSub now e.updatedAt > e.expiration) := by
      push_neg
      exact ⟨hz, hfresh⟩
    simp [GetCachedOrFetch, hlk, hcond]

/-- Witness for C4 at concrete inputs: missing key, failed on-demand
refresh of a stale entry, successful on-demand refresh, and the zero-I/O
fast path on a fresh entry. -/
theorem c4_witness :
    (GetCachedOrFetch (fun bs => bs.head?) ([] : CacheMap Nat) .fail 0 "/x"
        = ([], none, some (.noEntry "/x"), false)) ∧
    (GetCachedOrFetch (fun bs => bs.head?) [("/k", (⟨5, 100, 10⟩ : CacheEntry Nat))]
        .fail 200 "/k"
        = ([("/k", ⟨5, 100, 10⟩)], none, some (.fetchFresh .fetchFailed), true)) ∧
    (∃ v, GetCachedOrFetch (fun bs => bs.head?) [("/k", (⟨5, 100, 10⟩ : CacheEntry Nat))]
        (.resp ⟨200, some [9]⟩) 200 "/k"
        = ((updateCache (fun bs => bs.head?) [("/k", ⟨5, 100, 10⟩)]
            (.resp ⟨200, some [9]⟩) 200 "/k").1, some v, none, true)) ∧
    (GetCachedOrFetch (fun bs => bs.head?) [("/k", (⟨5, 100, 200⟩ : CacheEntry Nat))]
        .fail 200 "/k" = ([("/k", ⟨5, 100, 200⟩)], some 5, none, false)) := by
  refine ⟨?_, ?_, ?_, ?_⟩
  · exact (c4_read_or_fetch (fun bs => bs.head?) ([] : CacheMap Nat) .fail 0 "/x").1 rfl
  · exact ((c4_read_or_fetch (fun bs => bs.head?) [("/k", (⟨5, 100, 10⟩ : CacheEntry Nat))]
      .fail 200 "/k").2.1 ⟨5, 100, 10⟩ rfl (by right; decide)).1 .fetchFailed rfl
  · obtain ⟨v, hv, _⟩ := ((c4_read_or_fetch (fun bs => bs.head?)
      [("/k", (⟨5, 100, 10⟩ : CacheEntry Nat))] (.resp ⟨200, some [9]⟩) 200 "/k").2.1
      ⟨5, 100, 10⟩ rfl (by right; decide)).2 rfl
    exact ⟨v, hv⟩
  · exact (c4_read_or_fetch (fun bs => bs.head?) [("/k", (⟨5, 100, 200⟩ : CacheEntry Nat))]
      .fail 200 "/k").2.2 ⟨5, 100, 200⟩ rfl (by decide) (by decide)

theorem alookup_mem {β : Type} {k : String} {v : β} {m : List (String × β)}
    (h : alookup k m = some v) : (k, v) ∈ m := by
  induction m with
  | nil => simp [alookup] at h
  | cons hd tl ih =>
    obtain ⟨a, b⟩ := hd
    by_cases ha : a = k
    · rw [alookup, if_pos ha] at h
      subst ha
      injection h with hbv
      subst hbv
      exact List.mem_cons_self _ _
    · rw [alookup, if_neg ha] at h
      exact List.mem_cons_of_mem _ (ih h)

theorem mem_aerase {β : Type} {k : String} {pr : String × β} {m : List (String × β)} :
    pr ∈ aerase k m ↔ pr ∈ m ∧ ¬pr.1 = k := by
  induction m with
  | nil => simp [aerase]
  | cons hd tl ih =>
    obtain ⟨a, b⟩ := hd
    by_cases ha : a = k
    · rw [aerase, if_pos ha]
      rw [ih]
      constructor
      · intro ⟨h1, h2⟩
        exact ⟨List.mem_cons_of_mem _ h1, h2⟩
      · intro ⟨h1, h2⟩
        rcases List.mem_cons.mp h1 with he | hm
        · exact absurd (he ▸ ha) h2
        · exact ⟨hm, h2⟩
    · rw [aerase, if_neg ha]
      constructor
      · intro h
        rcases List.mem_cons.mp h with he | hm
        · exact ⟨List.mem_cons.mpr (Or.inl he), he ▸ ha⟩
        · obtain ⟨h1, h2⟩ := ih.mp hm
          exact ⟨List.mem_cons_of_mem _ h1, h2⟩
      · intro ⟨h1, h2⟩
        rcases List.mem_cons.mp h1 with he | hm
        · exact List.mem_cons.mpr (Or.inl he)
        · exact List.mem_cons_of_mem _ (ih.mpr ⟨hm, h2⟩)

theorem mem_ainsert {β : Type} {k : String} {v : β} {pr : String × β}
    {m : List (String × β)} :
    pr ∈ ainsert k v m ↔ pr = (k, v) ∨ (pr ∈ m ∧ ¬pr.1 = k) := by
  rw [ainsert]
  rw [List.mem_cons]
  rw [mem_aerase]

/-- The scheduling section never touches the cache, the stop-channel
bookkeeping, the fetch log or the set of stopped tickers. -/
theorem scheduleUpdates_frame {α : Type} (env : SchedEnv) (st : ClientState α)
    (cfg : CacheConfig) (cid : Nat) :
    (scheduleUpdates env st cfg cid).1.cache = st.cache ∧
    (scheduleUpdates env st cfg cid).1.stopChans = st.stopChans ∧
    (scheduleUpdates env st cfg cid).1.nextChan = st.nextChan ∧
    (scheduleUpdates env st cfg cid).1.closed = st.closed ∧
    (scheduleUpdates env st cfg cid).1.fetchLog = st.fetchLog ∧
    (scheduleUpdates env st cfg cid).1.stoppedTickers = st.stoppedTickers := by
  unfold scheduleUpdates addCron
  split
  · split
    · exact ⟨rfl, rfl, rfl, rfl, rfl, rfl⟩
    · split
      · exact ⟨rfl, rfl, rfl, rfl, rfl, rfl⟩
      · split
        · exact ⟨rfl, rfl, rfl, rfl, rfl, rfl⟩
        · exact ⟨rfl, rfl, rfl, rfl, rfl, rfl⟩
  · split
    · exact ⟨rfl, rfl, rfl, rfl, rfl, rfl⟩
    · exact ⟨rfl, rfl, rfl, rfl, rfl, rfl⟩

/-- Scheduling only ever appends (at most) one task, for the given path
and channel. -/
theorem scheduleUpdates_tasks {α : Type} (env : SchedEnv) (st : ClientState α)
    (cfg : CacheConfig) (cid : Nat) :
    (scheduleUpdates env st cfg cid).1.tasks = st.tasks ∨
    ∃ tk, (scheduleUpdates env st cfg cid).1.tasks
      = st.tasks ++ [{ path := cfg.path, chanId := cid, kind := tk }] := by
  unfold scheduleUpdates addCron
  split
  · split
    · exact Or.inl rfl
    · split
      · exact Or.inr ⟨.tickerLoop st.nextTicker, rfl⟩
      · split
        · exact Or.inr ⟨.cronJob, rfl⟩
        · exact Or.inl rfl
  · split
    · exact Or.inr ⟨.cronJob, rfl⟩
    · exact Or.inl rfl

/-- An accepted schedule returns no error and installs exactly one task
for the path and channel. -/
theorem scheduleUpdates_ok {α : Type} (env : SchedEnv) (st : ClientState α)
    (cfg : CacheConfig) (cid : Nat) (h : schedAccepts env cfg.cronSpec = true) :
    (scheduleUpdates env st cfg cid).2 = none ∧
    ∃ tk, (scheduleUpdates env st cfg cid).1.tasks
      = st.tasks ++ [{ path := cfg.path, chanId := cid, kind := tk }] := by
  unfold schedAccepts at h
  unfold scheduleUpdates addCron
  by_cases hp : hasPrefixStr cfg.cronSpec "@every " = true
  · rw [if_pos hp] at h
    rw [if_pos hp]
    cases hd : env.parseDuration (dropStr cfg.cronSpec 7) with
    | none =>
      rw [hd] at h
      simp at h
    | some d =>
      rw [hd] at h
      by_cases hlt : d < minuteNs
      · exact ⟨by simp [hlt], .tickerLoop st.nextTicker, by simp [hlt]⟩
      · simp only [hlt] at h
        simp at h
        exact ⟨by simp [hlt, h], .cronJob, by simp [hlt, h]⟩
  · rw [if_neg hp] at h
    rw [if_neg hp]
    exact ⟨by simp [h], .cronJob, by simp [h]⟩

/-- A rejected schedule returns the duration error or the cron error. -/
theorem scheduleUpdates_err {α : Type} (env : SchedEnv) (st : ClientState α)
    (cfg : CacheConfig) (cid : Nat) (h : schedAccepts env cfg.cronSpec = false) :
    ((scheduleUpdates env st cfg cid).2 = some .invalidDuration ∨
      (scheduleUpdates env st cfg cid).2 = some .scheduleFailed) ∧
    (scheduleUpdates env st cfg cid).1 = st := by
  unfold schedAccepts at h
  unfold scheduleUpdates addCron
  by_cases hp : hasPrefixStr cfg.cronSpec "@every " = true
  · rw [if_pos hp] at h
    rw [if_pos hp]
    cases hd : env.parseDuration (dropStr cfg.cronSpec 7) with
    | none =>
      exact ⟨Or.inl rfl, rfl⟩
    | some d =>
      rw [hd] at h
      by_cases hlt : d < minuteNs
      · simp [hlt] at h
      · simp only [hlt] at h
        simp at h
        exact ⟨Or.inr (by simp [hlt, h]), by simp [hlt, h]⟩
  · rw [if_neg hp] at h
    rw [if_neg hp]
    exact ⟨Or.inr (by simp [h]), by simp [h]⟩

/-- Registration rewrites the stop-channel map by allocating the next
channel id for the path; it never closes a channel or stops a ticker. -/
theorem doSetup_frame {α : Type} (env : SchedEnv) (decode : List Nat → Option α)
    (st : ClientState α) (cfg : CacheConfig) (init : α) (g : GetResult) (now : Int) :
    (doSetup env decode st cfg init g now).1.stopChans
      = ainsert cfg.path st.nextChan st.stopChans ∧
    (doSetup env decode st cfg init g now).1.nextChan = st.nextChan + 1 ∧
    (doSetup env decode st cfg init g now).1.closed = st.closed ∧
    (doSetup env decode st cfg init g now).1.stoppedTickers = st.stoppedTickers := by
  simp only [doSetup]
  by_cases hs : cfg.skipInitialFetch = true
  · rw [if_pos hs]
    obtain ⟨_, h2, h3, h4, _, h6⟩ := scheduleUpdates_frame env
      { st with cache := ainsert cfg.path (entry0 init cfg.expiration) st.cache,
                stopChans := ainsert cfg.path st.nextChan st.stopChans,
                nextChan := st.nextChan + 1 } cfg st.nextChan
    exact ⟨h2, h3, h4, h6⟩
  · rw [if_neg hs]
    cases hu : updateCache decode (ainsert cfg.path (entry0 init cfg.expiration) st.cache)
        g now cfg.path with
    | mk cache2 o2 =>
      cases o2 with
      | some e => exact ⟨rfl, rfl, rfl, rfl⟩
      | none =>
        obtain ⟨_, h2, h3, h4, _, h6⟩ := scheduleUpdates_frame env
          { st with cache := cache2,
                    stopChans := ainsert cfg.path st.nextChan st.stopChans,
                    nextChan := st.nextChan + 1,
                    fetchLog := st.fetchLog ++ [(cfg.path, .caller)] } cfg st.nextChan
        exact ⟨h2, h3, h4, h6⟩

/-- Registration installs at most one new background task, for its own
path and freshly allocated channel. -/
theorem doSetup_tasks {α : Type} (env : SchedEnv) (decode : List Nat → Option α)
    (st : ClientState α) (cfg : CacheConfig) (init : α) (g : GetResult) (now : Int) :
    (doSetup env decode st cfg init g now).1.tasks = st.tasks ∨
    ∃ tk, (doSetup env decode st cfg init g now).1.tasks
      = st.tasks ++ [{ path := cfg.path, chanId := st.nextChan, kind := tk }] := by
  simp only [doSetup]
  by_cases hs : cfg.skipInitialFetch = true
  · rw [if_pos hs]
    exact scheduleUpdates_tasks env _ cfg st.nextChan
  · rw [if_neg hs]
    cases hu : updateCache decode (ainsert cfg.path (entry0 init cfg.expiration) st.cache)
        g now cfg.path with
    | mk cache2 o2 =>
      cases o2 with
      | some e => exact Or.inl rfl
      | none => exact scheduleUpdates_tasks env _ cfg st.nextChan

/-- `StopCacheUpdates` touches only the stop-channel bookkeeping. -/
theorem doStopKey_frame {α : Type} (st : ClientState α) (p : String) :
    (doStopKey st p).cache = st.cache ∧
    (doStopKey st p).fetchLog = st.fetchLog ∧
    (doStopKey st p).tasks = st.tasks ∧
    (doStopKey st p).nextChan = st.nextChan ∧
    (doStopKey st p).tickers = st.tickers ∧
    (doStopKey st p).stoppedTickers = st.stoppedTickers ∧
    (doStopKey st p).cronRunning = st.cronRunning := by
  unfold doStopKey
  cases alookup p st.stopChans with
  | some cid => exact ⟨rfl, rfl, rfl, rfl, rfl, rfl, rfl⟩
  | none => exact ⟨rfl, rfl, rfl, rfl, rfl, rfl, rfl⟩

/-- A scheduled trigger touches only the cache and the fetch log. -/
theorem fireTask_frame {α : Type} (decode : List Nat → Option α) (st : ClientState α)
    (i : Nat) (g : GetResult) (now : Int) :
    (fireTask decode st i g now).stopChans = st.stopChans ∧
    (fireTask decode st i g now).nextChan = st.nextChan ∧
    (fireTask decode st i g now).closed = st.closed ∧
    (fireTask decode st i g now).tickers = st.tickers ∧
    (fireTask decode st i g now).stoppedTickers = st.stoppedTickers ∧
    (fireTask decode st i g now).tasks = st.tasks ∧
    (fireTask decode st i g now).cronRunning = st.cronRunning := by
  unfold fireTask
  cases st.tasks[i]? with
  | none => exact ⟨rfl, rfl, rfl, rfl, rfl, rfl, rfl⟩
  | some t =>
    by_cases hc : canFire st t
    · by_cases hm : t.chanId ∈ st.closed
      · simp [hc, hm]
      · simp [hc, hm]
    · simp [hc]

/-- A foreground read-or-fetch touches only the cache and the fetch log. -/
theorem doGetOrFetch_frame {α : Type} (decode : List Nat → Option α) (st : ClientState α)
    (g : GetResult) (now : Int) (path : String) :
    (doGetOrFetch decode st g now path).1.stopChans = st.stopChans ∧
    (doGetOrFetch decode st g now path).1.nextChan = st.nextChan ∧
    (doGetOrFetch decode st g now path).1.closed = st.closed ∧
    (doGetOrFetch decode st g now path).1.tickers = st.tickers ∧
    (doGetOrFetch decode st g now path).1.stoppedTickers = st.stoppedTickers ∧
    (doGetOrFetch decode st g now path).1.tasks = st.tasks ∧
    (doGetOrFetch decode st g now path).1.cronRunning = st.cronRunning := by
  unfold doGetOrFetch
  cases GetCachedOrFetch decode st.cache g now path with
  | mk cache2 rest => exact ⟨rfl, rfl, rfl, rfl, rfl, rfl, rfl⟩

/-- Every client operation preserves the channel-bookkeeping invariant. -/
theorem wf_step {α : Type} {env : SchedEnv} {decode : List Nat → Option α}
    {st st2 : ClientState α} (hst : Step env decode st st2) (hwf : wf st) : wf st2 := by
  obtain ⟨hw1, hw2, hw3⟩ := hwf
  cases hst with
  | setup cfg init g now =>
    obtain ⟨hsc, hnc, hcl, _⟩ := doSetup_frame env decode st cfg init g now
    refine ⟨?_, ?_, ?_⟩
    · intro c hc
      rw [hcl] at hc
      rw [hnc]
      exact Nat.lt_succ_of_lt (hw1 c hc)
    · intro pr hpr
      rw [hsc] at hpr
      rw [hnc, hcl]
      rcases mem_ainsert.mp hpr with he | ⟨hm, _⟩
      · rw [he]
        refine ⟨Nat.lt_succ_self _, fun hmem => ?_⟩
        exact absurd (hw1 _ hmem) (Nat.lt_irrefl _)
      · exact ⟨Nat.lt_succ_of_lt (hw2 pr hm).1, (hw2 pr hm).2⟩
    · intro pr qr hpr hqr heq
      rw [hsc] at hpr hqr
      rcases mem_ainsert.mp hpr with he1 | ⟨hm1, _⟩ <;>
        rcases mem_ainsert.mp hqr with he2 | ⟨hm2, _⟩
      · rw [he1, he2]
      · rw [he1] at heq ⊢
        exact absurd ((heq ▸ hw2 qr hm2).1) (Nat.lt_irrefl _)
      · rw [he2] at heq ⊢
        exact absurd ((heq ▸ hw2 pr hm1).1) (Nat.lt_irrefl _)
      · exact hw3 pr qr hm1 hm2 heq
  | stopKey p =>
    cases hl : alookup p st.stopChans with
    | none =>
      have he : doStopKey st p = st := by simp [doStopKey, hl]
      rw [he]
      exact ⟨hw1, hw2, hw3⟩
    | some cid =>
      have he : doStopKey st p
          = { st with closed := cid :: st.closed, stopChans := aerase p st.stopChans } := by
        simp [doStopKey, hl]
      rw [he]
      refine ⟨?_, ?_, ?_⟩
      · intro c hc
        rcases List.mem_cons.mp hc with rfl | hc2
        · exact (hw2 (p, c) (alookup_mem hl)).1
        · exact hw1 c hc2
      · intro pr hpr
        obtain ⟨hm, hne⟩ := mem_aerase.mp hpr
        refine ⟨(hw2 pr hm).1, fun hmem => ?_⟩
        rcases List.mem_cons.mp hmem with heq | hc2
        · exact hne (hw3 pr (p, cid) hm (alookup_mem hl) heq)
        · exact (hw2 pr hm).2 hc2
      · intro pr qr hpr hqr heq
        exact hw3 pr qr (mem_aerase.mp hpr).1 (mem_aerase.mp hqr).1 heq
  | stopAll =>
    refine ⟨?_, ?_, ?_⟩
    · intro c hc
      rcases List.mem_append.mp hc with hmap | hold
      · obtain ⟨pr, hpr, hpr2⟩ := List.mem_map.mp hmap
        exact hpr2 ▸ (hw2 pr hpr).1
      · exact hw1 c hold
    · intro pr hpr
      simp [doStop] at hpr
    · intro pr qr hpr _ _
      simp [doStop] at hpr
  | fire i g now =>
    obtain ⟨h1, h2, h3, _, _, _, _⟩ := fireTask_frame decode st i g now
    refine ⟨?_, ?_, ?_⟩
    · intro c hc
      rw [h3] at hc
      rw [h2]
      exact hw1 c hc
    · intro pr hpr
      rw [h1] at hpr
      rw [h2, h3]
      exact hw2 pr hpr
    · intro pr qr hpr hqr heq
      rw [h1] at hpr hqr
      exact hw3 pr qr hpr hqr heq
  | orFetch g now path =>
    obtain ⟨h1, h2, h3, _, _, _, _⟩ := doGetOrFetch_frame decode st g now path
    refine ⟨?_, ?_, ?_⟩
    · intro c hc
      rw [h3] at hc
      rw [h2]
      exact hw1 c hc
    · intro pr hpr
      rw [h1] at hpr
      rw [h2, h3]
      exact hw2 pr hpr
    · intro pr qr hpr hqr heq
      rw [h1] at hpr hqr
      exact hw3 pr qr hpr hqr heq

/-- The channel-bookkeeping invariant holds in every reachable client
state; in particular `StopCacheUpdates` can never close a channel twice. -/
theorem reaches_wf {α : Type} {env : SchedEnv} {decode : List Nat → Option α}
    {st : ClientState α} (h : Reaches env decode st) : wf st := by
  induction h with
  | init =>
    refine ⟨?_, ?_, ?_⟩ <;> intros <;> simp_all [initState, alookup, wf]
  | step hre hst ih => exact wf_step hst ih

theorem goodTasks_initState {α : Type} : goodTasks (initState (α := α)) := by
  intro t ht
  simp [initState] at ht

/-- Registering a path that is not currently registered preserves the
task-channel invariant (re-registering a live path is exactly what breaks
it). -/
theorem goodTasks_doSetup_fresh {α : Type} (env : SchedEnv) (decode : List Nat → Option α)
    (st : ClientState α) (cfg : CacheConfig) (init : α) (g : GetResult) (now : Int)
    (hg : goodTasks st) (hfresh : alookup cfg.path st.stopChans = none) :
    goodTasks (doSetup env decode st cfg init g now).1 := by
  obtain ⟨hsc, _, hcl, _⟩ := doSetup_frame env decode st cfg init g now
  intro t ht
  rw [hcl, hsc]
  have hold : ∀ u : BgTask, u ∈ st.tasks →
      u.chanId ∈ st.closed ∨ alookup u.path (ainsert cfg.path st.nextChan st.stopChans)
        = some u.chanId := by
    intro u hu
    rcases hg u hu with hc | hcur
    · exact Or.inl hc
    · by_cases hpq : u.path = cfg.path
      · rw [hpq] at hcur
        rw [hfresh] at hcur
        cases hcur
      · rw [alookup_ainsert_ne _ _ _ _ hpq]
        exact Or.inr hcur
  rcases doSetup_tasks env decode st cfg init g now with heq | ⟨tk, heq⟩
  · exact hold t (heq ▸ ht)
  · rw [heq] at ht
    rcases List.mem_append.mp ht with hmem | hnew
    · exact hold t hmem
    · rcases List.mem_singleton.mp hnew with rfl
      exact Or.inr (alookup_ainsert_self _ _ _)

theorem goodTasks_doStopKey {α : Type} (st : ClientState α) (p : String)
    (hg : goodTasks st) : goodTasks (doStopKey st p) := by
  unfold doStopKey
  cases hl : alookup p st.stopChans with
  | none => exact hg
  | some cid =>
    intro t ht
    rcases hg t ht with hc | hcur
    · exact Or.inl (List.mem_cons_of_mem _ hc)
    · by_cases hpq : t.path = p
      · rw [hpq, hl] at hcur
        injection hcur with hc2
        exact Or.inl (hc2 ▸ List.mem_cons_self _ _)
      · rw [alookup_aerase]
        rw [if_neg hpq]
        exact Or.inr hcur

theorem goodTasks_doStop {α : Type} (st : ClientState α) (hg : goodTasks st) :
    goodTasks (doStop st) := by
  intro t ht
  rcases hg t ht with hc | hcur
  · exact Or.inl (List.mem_append.mpr (Or.inr hc))
  · exact Or.inl (List.mem_append.mpr (Or.inl
      (List.mem_map.mpr ⟨(t.path, t.chanId), alookup_mem hcur, rfl⟩)))

theorem goodTasks_fireTask {α : Type} (decode : List Nat → Option α) (st : ClientState α)
    (i : Nat) (g : GetResult) (now : Int) (hg : goodTasks st) :
    goodTasks (fireTask decode st i g now) := by
  obtain ⟨h1, _, h3, _, _, h6, _⟩ := fireTask_frame decode st i g now
  intro t ht
  rw [h1, h3]
  exact hg t (h6 ▸ ht)

theorem goodTasks_doGetOrFetch {α : Type} (decode : List Nat → Option α)
    (st : ClientState α) (g : GetResult) (now : Int) (path : String)
    (hg : goodTasks st) : goodTasks (doGetOrFetch decode st g now path).1 := by
  obtain ⟨h1, _, h3, _, _, h6, _⟩ := doGetOrFetch_frame decode st g now path
  intro t ht
  rw [h1, h3]
  exact hg t (h6 ▸ ht)

/-- A trigger for a task whose captured stop channel is closed is a
complete no-op: `updateFunc` returns before fetching. -/
theorem fireTask_closed {α : Type} (decode : List Nat → Option α) (st : ClientState α)
    (i : Nat) (g : GetResult) (now : Int) (t : BgTask)
    (hti : st.tasks[i]? = some t) (hcm : t.chanId ∈ st.closed) :
    fireTask decode st i g now = st := by
  by_cases hc : canFire st t
  · simp [fireTask, hti, hc, hcm]
  · simp [fireTask, hti, hc]

/-- Counterexample to claim C8 as stated: on the doubly registered
client, `StopCacheUpdates "/k"` closes only the second registration's
channel; the first registration's ticker task still fires afterwards and
performs a network fetch for `"/k"` — not the zero additional calls the
claim demands. -/
theorem c8_counterexample :
    (doStopKey regTwice "/k").fetchLog = [] ∧
    (fireTask headDecode (doStopKey regTwice "/k") 0 (.resp ⟨200, some [1]⟩) 5).fetchLog
      = [("/k", CtxTag.background)] := by
  exact ⟨by decide, by decide⟩

/-- Claim C8 (amended): `StopCacheUpdates` is idempotent, is a no-op on a
key with no current stop channel (never registered or already stopped),
never closes a channel twice in any reachable client state, and touches
neither the entry map nor the network log, so the last cached value stays
readable under the usual staleness rules. After stopping a key, none of
that key's background tasks can ever fetch again *provided* no live
registration of the key was overwritten (`goodTasks`); a task orphaned by
re-registration keeps its never-closed channel and can still fetch. -/
theorem c8_stop_updates {α : Type} (env : SchedEnv) (decode : List Nat → Option α)
    (st : ClientState α) (p : String) (hre : Reaches env decode st) :
    (doStopKey (doStopKey st p) p = doStopKey st p) ∧
    (alookup p st.stopChans = none → doStopKey st p = st) ∧
    ((doStopKey st p).cache = st.cache ∧ (doStopKey st p).fetchLog = st.fetchLog) ∧
    (∀ c, alookup p st.stopChans = some c → c ∉ st.closed) ∧
    (goodTasks st → ∀ i t g now, st.tasks[i]? = some t → t.path = p →
        fireTask decode (doStopKey st p) i g now = doStopKey st p) := by
  obtain ⟨hw1, hw2, hw3⟩ := reaches_wf hre
  refine ⟨?_, ?_, ?_, ?_, ?_⟩
  · cases hl : alookup p st.stopChans with
    | none =>
      have he : doStopKey st p = st := by simp [doStopKey, hl]
      rw [he]
      exact he
    | some cid =>
      have he : doStopKey st p
          = { st with closed := cid :: st.closed, stopChans := aerase p st.stopChans } := by
        simp [doStopKey, hl]
      have h2 : alookup p (aerase p st.stopChans) = none := by
        rw [alookup_aerase]
        simp
      rw [he]
      simp [doStopKey, h2]
  · intro hl
    simp [doStopKey, hl]
  · exact ⟨(doStopKey_frame st p).1, (doStopKey_frame st p).2.1⟩
  · intro c hl
    exact (hw2 (p, c) (alookup_mem hl)).2
  · intro hg i t g now hti htp
    have htasks : (doStopKey st p).tasks = st.tasks := (doStopKey_frame st p).2.2.1
    cases hl : alookup p st.stopChans with
    | none =>
      have he : doStopKey st p = st := by simp [doStopKey, hl]
      rw [he]
      rcases hg t (List.getElem?_mem hti) with hc | hcur
      · exact fireTask_closed decode st i g now t hti hc
      · rw [htp] at hcur
        rw [hl] at hcur
        cases hcur
    | some cid =>
      have he : doStopKey st p
          = { st with closed := cid :: st.closed, stopChans := aerase p st.stopChans } := by
        simp [doStopKey, hl]
      have hcm : t.chanId ∈ cid :: st.closed := by
        rcases hg t (List.getElem?_mem hti) with hc | hcur
        · exact List.mem_cons_of_mem _ hc
        · rw [htp] at hcur
          rw [hl] at hcur
          injection hcur with hc2
          rw [hc2]
          exact List.mem_cons_self _ _
      rw [he]
      exact fireTask_closed decode _ i g now t hti hcm

/-- Witness for C8 at a concrete reachable client with one live
registration: stop is idempotent, preserves the entry, and the key's
ticker task no longer fetches. -/
theorem c8_witness :
    doStopKey (doStopKey regOnce "/k") "/k" = doStopKey regOnce "/k" ∧
    (doStopKey regOnce "/k").cache = regOnce.cache ∧
    (∀ c, alookup "/k" regOnce.stopChans = some c → c ∉ regOnce.closed) ∧
    fireTask headDecode (doStopKey regOnce "/k") 0 (.resp ⟨200, some [1]⟩) 5
      = doStopKey regOnce "/k" := by
  have hre : Reaches tickerEnv headDecode regOnce :=
    Reaches.step Reaches.init (Step.setup initState tickerCfg 0 .fail 0)
  have h := c8_stop_updates tickerEnv headDecode regOnce "/k" hre
  refine ⟨h.1, h.2.2.1.1, h.2.2.2.1, ?_⟩
  exact h.2.2.2.2 (by unfold goodTasks; decide) 0
    { path := "/k", chanId := 0, kind := .tickerLoop 0 } (.resp ⟨200, some [1]⟩) 5
    (by decide) rfl

/-- Counterexample to claim C9 as stated: on the doubly registered
client, `Stop` stops only the tickers and channels currently mapped; the
first registration's orphaned ticker task still fires after `Stop`
returns and performs a network fetch, so a background refresh does run
again. -/
theorem c9_counterexample :
    (doStop regTwice).fetchLog = [] ∧
    (fireTask headDecode (doStop regTwice) 0 (.resp ⟨200, some [1]⟩) 5).fetchLog
      = [("/k", CtxTag.background)] := by
  exact ⟨by decide, by decide⟩

/-- Claim C9 (amended): `Stop` stops the shared cron scheduler, stops
every currently mapped ticker, closes every currently mapped stop
channel, and leaves the entry map and the network log untouched, so reads
afterwards still return last-known values. No background task can ever
fetch again *provided* no live registration was overwritten
(`goodTasks`); a ticker task orphaned by re-registering its key is
neither stopped nor closed by `Stop` and can still fetch. -/
theorem c9_stop_all {α : Type} (decode : List Nat → Option α) (st : ClientState α) :
    ((doStop st).cronRunning = false) ∧
    (∀ pr ∈ st.tickers, pr.2 ∈ (doStop st).stoppedTickers) ∧
    (∀ pr ∈ st.stopChans, pr.2 ∈ (doStop st).closed) ∧
    ((doStop st).cache = st.cache ∧ (doStop st).fetchLog = st.fetchLog) ∧
    (∀ now2 q, GetCached (doStop st).cache now2 q = GetCached st.cache now2 q) ∧
    (goodTasks st → ∀ i g now, fireTask decode (doStop st) i g now = doStop st) := by
  refine ⟨rfl, ?_, ?_, ⟨rfl, rfl⟩, ?_, ?_⟩
  · intro pr hpr
    exact List.mem_append.mpr (Or.inl (List.mem_map.mpr ⟨pr, hpr, rfl⟩))
  · intro pr hpr
    exact List.mem_append.mpr (Or.inl (List.mem_map.mpr ⟨pr, hpr, rfl⟩))
  · intro now2 q
    rfl
  · intro hg i g now
    cases hti : st.tasks[i]? with
    | none =>
      have hti2 : (doStop st).tasks[i]? = none := hti
      simp [fireTask, hti2]
    | some t =>
      have hti2 : (doStop st).tasks[i]? = some t := hti
      have hcm : t.chanId ∈ (doStop st).closed := by
        rcases hg t (List.getElem?_mem hti) with hc | hcur
        · exact List.mem_append.mpr (Or.inr hc)
        · exact List.mem_append.mpr (Or.inl
            (List.mem_map.mpr ⟨(t.path, t.chanId), alookup_mem hcur, rfl⟩))
      exact fireTask_closed decode (doStop st) i g now t hti2 hcm

/-- Witness for C9 at the concrete client with one live registration:
after `Stop`, the cron scheduler is down, the ticker is stopped, the
entry survives, and the key's task no longer fetches. -/
theorem c9_witness :
    (doStop regOnce).cronRunning = false ∧
    (doStop regOnce).cache = regOnce.cache ∧
    (∀ now2 q, GetCached (doStop regOnce).cache now2 q = GetCached regOnce.cache now2 q) ∧
    fireTask headDecode (doStop regOnce) 0 (.resp ⟨200, some [1]⟩) 5 = doStop regOnce := by
  have h := c9_stop_all headDecode regOnce
  refine ⟨h.1, h.2.2.2.1.1, h.2.2.2.2.1, ?_⟩
  exact h.2.2.2.2.2 (by unfold goodTasks; decide) 0 (.resp ⟨200, some [1]⟩) 5

theorem timeSub_self (t : Int) : timeSub t t = 0 := by
  unfold timeSub maxDuration minDuration
  norm_num

/-- `time.Since` of the zero time exceeds every freshness window that is
below the maximum duration and below the clock reading (in practice:
every window except `1<<63 - 1` ns). -/
theorem timeSub_zero_stale (now exp : Int) (h1 : exp < maxDuration) (h2 : exp < now) :
    timeSub now 0 > exp := by
  unfold timeSub
  unfold maxDuration minDuration at *
  split
  · omega
  · split
    · omega
    · omega

/-- With the initial fetch skipped, registration is: create the sentinel
entry and the fresh channel, then resolve the schedule. -/
theorem doSetup_skip_eq {α : Type} (env : SchedEnv) (decode : List Nat → Option α)
    (st : ClientState α) (cfg : CacheConfig) (init : α) (g : GetResult) (now : Int)
    (hs : cfg.skipInitialFetch = true) :
    doSetup env decode st cfg init g now = scheduleUpdates env
      { st with cache := ainsert cfg.path (entry0 init cfg.expiration) st.cache,
                stopChans := ainsert cfg.path st.nextChan st.stopChans,
                nextChan := st.nextChan + 1 } cfg st.nextChan := by
  simp [doSetup, hs]

/-- A failed mandatory initial fetch returns the wrapped error
immediately: the sentinel entry and the fresh channel stay, one
caller-context round trip is logged, and no schedule is resolved. -/
theorem doSetup_fetchfail_eq {α : Type} (env : SchedEnv) (decode : List Nat → Option α)
    (st : ClientState α) (cfg : CacheConfig) (init : α) (g : GetResult) (now : Int)
    (err : UpdateErr) (hs : cfg.skipInitialFetch = false)
    (hu : (updateCache decode (ainsert cfg.path (entry0 init cfg.expiration) st.cache)
        g now cfg.path).2 = some err) :
    doSetup env decode st cfg init g now =
      ({ st with cache := ainsert cfg.path (entry0 init cfg.expiration) st.cache,
                 stopChans := ainsert cfg.path st.nextChan st.stopChans,
                 nextChan := st.nextChan + 1,
                 fetchLog := st.fetchLog ++ [(cfg.path, .caller)] },
       some (.initialUpdate err)) := by
  have h1 := updateCache_fail_eq decode
    (ainsert cfg.path (entry0 init cfg.expiration) st.cache) g now cfg.path err hu
  simp only [doSetup, hs]
  cases hu2 : updateCache decode (ainsert cfg.path (entry0 init cfg.expiration) st.cache)
      g now cfg.path with
  | mk c2 o2 =>
    rw [hu2] at hu h1
    simp only at hu h1
    subst hu
    subst h1
    simp

/-- A successful mandatory initial fetch proceeds to schedule resolution
with the refreshed cache and one caller-context round trip logged. -/
theorem doSetup_fetchok_eq {α : Type} (env : SchedEnv) (decode : List Nat → Option α)
    (st : ClientState α) (cfg : CacheConfig) (init : α) (g : GetResult) (now : Int)
    (hs : cfg.skipInitialFetch = false)
    (hu : (updateCache decode (ainsert cfg.path (entry0 init cfg.expiration) st.cache)
        g now cfg.path).2 = none) :
    doSetup env decode st cfg init g now = scheduleUpdates env
      { st with cache := (updateCache decode
                  (ainsert cfg.path (entry0 init cfg.expiration) st.cache) g now cfg.path).1,
                stopChans := ainsert cfg.path st.nextChan st.stopChans,
                nextChan := st.nextChan + 1,
                fetchLog := st.fetchLog ++ [(cfg.path, .caller)] } cfg st.nextChan := by
  simp only [doSetup, hs]
  cases hu2 : updateCache decode (ainsert cfg.path (entry0 init cfg.expiration) st.cache)
      g now cfg.path with
  | mk c2 o2 =>
    rw [hu2] at hu
    simp only at hu
    subst hu
    simp

/-- The sub-minute `@every` branch: a dedicated ticker, no cron
involvement, no error. -/
theorem scheduleUpdates_ticker {α : Type} (env : SchedEnv) (st : ClientState α)
    (cfg : CacheConfig) (cid : Nat) (d : Int)
    (hp : hasPrefixStr cfg.cronSpec "@every " = true)
    (hd : env.parseDuration (dropStr cfg.cronSpec 7) = some d) (hlt : d < minuteNs) :
    (scheduleUpdates env st cfg cid).2 = none ∧
    (scheduleUpdates env st cfg cid).1.tickers = ainsert cfg.path st.nextTicker st.tickers ∧
    (scheduleUpdates env st cfg cid).1.tasks
      = st.tasks ++ [{ path := cfg.path, chanId := cid, kind := .tickerLoop st.nextTicker }] ∧
    (scheduleUpdates env st cfg cid).1.cronRunning = st.cronRunning := by
  refine ⟨?_, ?_, ?_, ?_⟩ <;> simp [scheduleUpdates, hp, hd, hlt]

/-- An `@every` spec whose duration does not parse fails immediately. -/
theorem scheduleUpdates_everyBad {α : Type} (env : SchedEnv) (st : ClientState α)
    (cfg : CacheConfig) (cid : Nat)
    (hp : hasPrefixStr cfg.cronSpec "@every " = true)
    (hd : env.parseDuration (dropStr cfg.cronSpec 7) = none) :
    (scheduleUpdates env st cfg cid).2 = some .invalidDuration := by
  simp [scheduleUpdates, hp, hd]

/-- Every other spec — no `@every` marker, or an `@every` duration of a
minute or more — goes to the shared cron evaluator: on acceptance a cron
job is added and the evaluator started, on rejection registration fails. -/
theorem scheduleUpdates_cron {α : Type} (env : SchedEnv) (st : ClientState α)
    (cfg : CacheConfig) (cid : Nat)
    (hcase : hasPrefixStr cfg.cronSpec "@every " = false ∨
      ∃ d, env.parseDuration (dropStr cfg.cronSpec 7) = some d ∧ ¬d < minuteNs) :
    (env.cronSpecOk cfg.cronSpec = true →
      (scheduleUpdates env st cfg cid).2 = none ∧
      (scheduleUpdates env st cfg cid).1.tasks
        = st.tasks ++ [{ path := cfg.path, chanId := cid, kind := .cronJob }] ∧
      (scheduleUpdates env st cfg cid).1.cronRunning = true ∧
      (scheduleUpdates env st cfg cid).1.tickers = st.tickers) ∧
    (env.cronSpecOk cfg.cronSpec = false →
      (scheduleUpdates env st cfg cid).2 = some .scheduleFailed) := by
  constructor
  · intro hok
    rcases hcase with hp | ⟨d, hd, hge⟩
    · refine ⟨?_, ?_, ?_, ?_⟩ <;> simp [scheduleUpdates, addCron, hp, hok]
    · have hp2 : hasPrefixStr cfg.cronSpec "@every " = true ∨
          hasPrefixStr cfg.cronSpec "@every " = false := by
        cases hasPrefixStr cfg.cronSpec "@every " with
        | true => exact Or.inl rfl
        | false => exact Or.inr rfl
      rcases hp2 with hp2 | hp2
      · refine ⟨?_, ?_, ?_, ?_⟩ <;> simp [scheduleUpdates, addCron, hp2, hd, hge, hok]
      · refine ⟨?_, ?_, ?_, ?_⟩ <;> simp [scheduleUpdates, addCron, hp2, hok]
  · intro hbad
    rcases hcase with hp | ⟨d, hd, hge⟩
    · simp [scheduleUpdates, addCron, hp, hbad]
    · have hp2 : hasPrefixStr cfg.cronSpec "@every " = true ∨
          hasPrefixStr cfg.cronSpec "@every " = false := by
        cases hasPrefixStr cfg.cronSpec "@every " with
        | true => exact Or.inl rfl
        | false => exact Or.inr rfl
      rcases hp2 with hp2 | hp2
      · simp [scheduleUpdates, addCron, hp2, hd, hge, hbad]
      · simp [scheduleUpdates, addCron, hp2, hbad]

theorem doSetup_skip_state {α : Type} (env : SchedEnv) (decode : List Nat → Option α)
    (st : ClientState α) (cfg : CacheConfig) (init : α) (g : GetResult) (now : Int)
    (hs : cfg.skipInitialFetch = true) :
    doSetup env decode st cfg init g now
      = scheduleUpdates env (skipState st cfg init) cfg st.nextChan :=
  doSetup_skip_eq env decode st cfg init g now hs

theorem doSetup_fetchfail_state {α : Type} (env : SchedEnv) (decode : List Nat → Option α)
    (st : ClientState α) (cfg : CacheConfig) (init : α) (g : GetResult) (now : Int)
    (err : UpdateErr) (hs : cfg.skipInitialFetch = false)
    (hu : (updateCache decode (ainsert cfg.path (entry0 init cfg.expiration) st.cache)
        g now cfg.path).2 = some err) :
    doSetup env decode st cfg init g now
      = (failState st cfg init, some (.initialUpdate err)) :=
  doSetup_fetchfail_eq env decode st cfg init g now err hs hu

theorem doSetup_fetchok_state {α : Type} (env : SchedEnv) (decode : List Nat → Option α)
    (st : ClientState α) (cfg : CacheConfig) (init : α) (g : GetResult) (now : Int)
    (hs : cfg.skipInitialFetch = false)
    (hu : (updateCache decode (ainsert cfg.path (entry0 init cfg.expiration) st.cache)
        g now cfg.path).2 = none) :
    doSetup env decode st cfg init g now
      = scheduleUpdates env (okState decode st cfg init g now) cfg st.nextChan :=
  doSetup_fetchok_eq env decode st cfg init g now hs hu

/-- Claim C5 (amended): `Register` creates the entry with the zero-time
sentinel and allocates the stop channel. With `skipInitialFetch` it makes
zero network calls, succeeds exactly when the schedule resolves
(installing the background task), fails with a schedule error otherwise,
and `ReadCached` then reports the entry stale — *provided* the freshness
window is below the maximum duration and below the clock reading (a
window equal to the maximum duration reads as fresh, because `time.Since`
of the zero time saturates). Without `skipInitialFetch`, it performs one
synchronous caller-context refresh before returning: on failure the
wrapped fetch/decode error is returned and the sentinel entry remains; on
success with a valid schedule it returns no error, the entry holds the
fetched value stamped `now`, and the task is installed. -/
theorem c5_register {α : Type} (env : SchedEnv) (decode : List Nat → Option α)
    (st : ClientState α) (cfg : CacheConfig) (init : α) (g : GetResult) (now : Int) :
    (cfg.skipInitialFetch = true →
        (doSetup env decode st cfg init g now).1.fetchLog = st.fetchLog ∧
        alookup cfg.path (doSetup env decode st cfg init g now).1.cache
          = some (entry0 init cfg.expiration)) ∧
    (cfg.skipInitialFetch = true → schedAccepts env cfg.cronSpec = true →
        (doSetup env decode st cfg init g now).2 = none ∧
        ∃ tk, (doSetup env decode st cfg init g now).1.tasks
          = st.tasks ++ [{ path := cfg.path, chanId := st.nextChan, kind := tk }]) ∧
    (cfg.skipInitialFetch = true → schedAccepts env cfg.cronSpec = false →
        (doSetup env decode st cfg init g now).2 = some .invalidDuration ∨
        (doSetup env decode st cfg init g now).2 = some .scheduleFailed) ∧
    (cfg.skipInitialFetch = false → ∀ err,
        (updateCache decode (ainsert cfg.path (entry0 init cfg.expiration) st.cache)
          g now cfg.path).2 = some err →
        (doSetup env decode st cfg init g now).2 = some (.initialUpdate err) ∧
        (doSetup env decode st cfg init g now).1.fetchLog
          = st.fetchLog ++ [(cfg.path, .caller)] ∧
        alookup cfg.path (doSetup env decode st cfg init g now).1.cache
          = some (entry0 init cfg.expiration)) ∧
    (cfg.skipInitialFetch = false →
        (updateCache decode (ainsert cfg.path (entry0 init cfg.expiration) st.cache)
          g now cfg.path).2 = none →
        schedAccepts env cfg.cronSpec = true →
        (doSetup env decode st cfg init g now).2 = none ∧
        (∃ v, alookup cfg.path (doSetup env decode st cfg init g now).1.cache
          = some { data := v, updatedAt := now, expiration := cfg.expiration }) ∧
        (doSetup env decode st cfg init g now).1.fetchLog
          = st.fetchLog ++ [(cfg.path, .caller)] ∧
        ∃ tk, (doSetup env decode st cfg init g now).1.tasks
          = st.tasks ++ [{ path := cfg.path, chanId := st.nextChan, kind := tk }]) ∧
    (cfg.skipInitialFetch = true → cfg.expiration < maxDuration →
        ∀ now2 : Int, cfg.expiration < now2 →
        GetCached (doSetup env decode st cfg init g now).1.cache now2 cfg.path
          = (some init, some (.expired cfg.path))) := by
  refine ⟨?_, ?_, ?_, ?_, ?_, ?_⟩
  · intro hs
    rw [doSetup_skip_state env decode st cfg init g now hs]
    obtain ⟨hc, _, _, _, hlog, _⟩ :=
      scheduleUpdates_frame env (skipState st cfg init) cfg st.nextChan
    refine ⟨hlog, ?_⟩
    rw [hc]
    exact alookup_ainsert_self _ _ _
  · intro hs hok
    rw [doSetup_skip_state env decode st cfg init g now hs]
    exact scheduleUpdates_ok env (skipState st cfg init) cfg st.nextChan hok
  · intro hs hbad
    rw [doSetup_skip_state env decode st cfg init g now hs]
    exact (scheduleUpdates_err env (skipState st cfg init) cfg st.nextChan hbad).1
  · intro hs err hu
    rw [doSetup_fetchfail_state env decode st cfg init g now err hs hu]
    exact ⟨rfl, rfl, alookup_ainsert_self _ _ _⟩
  · intro hs hu hok
    rw [doSetup_fetchok_state env decode st cfg init g now hs hu]
    obtain ⟨h2, tk, htk⟩ :=
      scheduleUpdates_ok env (okState decode st cfg init g now) cfg st.nextChan hok
    obtain ⟨hc, _, _, _, hlog, _⟩ :=
      scheduleUpdates_frame env (okState decode st cfg init g now) cfg st.nextChan
    obtain ⟨v, hv⟩ := updateCache_ok_lookup decode
      (ainsert cfg.path (entry0 init cfg.expiration) st.cache) g now cfg.path
      (entry0 init cfg.expiration) (alookup_ainsert_self _ _ _) hu
    refine ⟨h2, ⟨v, ?_⟩, hlog, tk, htk⟩
    rw [hc]
    exact hv
  · intro hs hmax now2 hnow
    rw [doSetup_skip_state env decode st cfg init g now hs]
    obtain ⟨hc, _, _, _, _, _⟩ :=
      scheduleUpdates_frame env (skipState st cfg init) cfg st.nextChan
    have hlk : alookup cfg.path
        (scheduleUpdates env (skipState st cfg init) cfg st.nextChan).1.cache
        = some (entry0 init cfg.expiration) := by
      rw [hc]
      exact alookup_ainsert_self _ _ _
    have hstale : cfg.expiration < timeSub now2 0 :=
      timeSub_zero_stale now2 cfg.expiration hmax hnow
    simp [GetCached, hlk, hstale, entry0]

/-- Counterexample to claim C5 as stated: registering `"/k"` with
`skipInitialFetch`, a valid cron schedule and the maximum-duration
freshness window succeeds with zero network calls, but `ReadCached` then
returns the placeholder value with *no* error — the entry is not reported
stale before any fetch, contradicting the claim. -/
theorem c5_counterexample :
    ((doSetup anyCronEnv headDecode initState maxWinCfg 7 .fail 0).2 = none) ∧
    ((doSetup anyCronEnv headDecode initState maxWinCfg 7 .fail 0).1.fetchLog = []) ∧
    (GetCached (doSetup anyCronEnv headDecode initState maxWinCfg 7 .fail 0).1.cache
        63902822400000000000 "/k" = (some 7, none)) := by
  exact ⟨by decide, by decide, by decide⟩

/-- Witness for C5 at concrete inputs: the skip case (zero calls, stale
read with a realistic window), the schedule-error case, the failed and
the successful mandatory initial fetch. -/
theorem c5_witness :
    ((doSetup tickerEnv headDecode initState tickerCfg 0 .fail 0).2 = none) ∧
    ((doSetup tickerEnv headDecode initState tickerCfg 0 .fail 0).1.fetchLog = []) ∧
    (GetCached (doSetup tickerEnv headDecode initState tickerCfg 0 .fail 0).1.cache
        100000000000 "/k" = (some 0, some (.expired "/k"))) ∧
    ((doSetup tickerEnv headDecode initState bogusCfg 0 .fail 0).2
        = some .invalidDuration ∨
      (doSetup tickerEnv headDecode initState bogusCfg 0 .fail 0).2
        = some .scheduleFailed) ∧
    ((doSetup tickerEnv headDecode initState fetchCfg 0 .fail 0).2
      = some (.initialUpdate .fetchFailed)) ∧
    ((doSetup tickerEnv headDecode initState fetchCfg 0 (.resp ⟨200, some [9]⟩) 77).2
      = none) := by
  have h1 := c5_register tickerEnv headDecode initState tickerCfg 0 .fail 0
  have h2 := c5_register tickerEnv headDecode initState bogusCfg 0 .fail 0
  have h3 := c5_register tickerEnv headDecode initState fetchCfg 0 .fail 0
  have h4 := c5_register tickerEnv headDecode initState fetchCfg 0
    (.resp ⟨200, some [9]⟩) 77
  refine ⟨(h1.2.1 rfl (by decide)).1, (h1.1 rfl).1, ?_, h2.2.2.1 rfl (by decide), ?_, ?_⟩
  · exact h1.2.2.2.2.2 rfl (by decide) 100000000000 (by decide)
  · exact (h3.2.2.2.1 rfl .fetchFailed rfl).1
  · exact (h4.2.2.2.2.1 rfl rfl (by decide)).1

/-- Claim C6: when the mandatory initial fetch of `Register` returns a
payload the decoder rejects, `Register` fails with the wrapped decode
error and the optimistically created entry remains unpopulated — its
value is still the caller's placeholder, its `updatedAt` is still the
zero-time sentinel (so it is never-fresh), and no background task was
installed. -/
theorem c6_malformed_payload {α : Type} (env : SchedEnv) (decode : List Nat → Option α)
    (st : ClientState α) (cfg : CacheConfig) (init : α) (g : GetResult) (now : Int)
    (hs : cfg.skipInitialFetch = false)
    (hu : (updateCache decode (ainsert cfg.path (entry0 init cfg.expiration) st.cache)
        g now cfg.path).2 = some .unmarshalFailed) :
    (doSetup env decode st cfg init g now).2 = some (.initialUpdate .unmarshalFailed) ∧
    alookup cfg.path (doSetup env decode st cfg init g now).1.cache
      = some (entry0 init cfg.expiration) ∧
    (doSetup env decode st cfg init g now).1.tasks = st.tasks := by
  rw [doSetup_fetchfail_state env decode st cfg init g now .unmarshalFailed hs hu]
  exact ⟨rfl, alookup_ainsert_self _ _ _, rfl⟩

/-- Witness for C6: a concrete registration whose initial fetch returns a
200 response that fails to decode. -/
theorem c6_witness :
    (doSetup tickerEnv badDecode initState fetchCfg 0 (.resp ⟨200, some [1]⟩) 9).2
      = some (.initialUpdate .unmarshalFailed) ∧
    alookup "/k" (doSetup tickerEnv badDecode initState fetchCfg 0
        (.resp ⟨200, some [1]⟩) 9).1.cache = some (entry0 0 60000000000) ∧
    (doSetup tickerEnv badDecode initState fetchCfg 0 (.resp ⟨200, some [1]⟩) 9).1.tasks
      = ([] : List BgTask) := by
  exact c6_malformed_payload tickerEnv badDecode initState fetchCfg 0
    (.resp ⟨200, some [1]⟩) 9 rfl rfl

/-- Claim C7: schedule-policy resolution in `Register` (whenever the
initial fetch is skipped or succeeds, so that the scheduling section is
reached). An `@every` spec whose duration parses below one minute gets a
dedicated fixed-interval ticker — the cron evaluator is untouched; an
`@every` spec whose duration does not parse fails with the duration
error; every other case (no `@every` marker, or a parsed duration of one
minute or more) goes to the shared cron evaluator, succeeding with a cron
job exactly when the cron parser accepts the spec and failing with the
schedule error otherwise. -/
theorem c7_schedule_policy {α : Type} (env : SchedEnv) (decode : List Nat → Option α)
    (st : ClientState α) (cfg : CacheConfig) (init : α) (g : GetResult) (now : Int)
    (hreach : cfg.skipInitialFetch = false →
      (updateCache decode (ainsert cfg.path (entry0 init cfg.expiration) st.cache)
        g now cfg.path).2 = none) :
    (hasPrefixStr cfg.cronSpec "@every " = true →
      (∀ d : Int, env.parseDuration (dropStr cfg.cronSpec 7) = some d → d < minuteNs →
        (doSetup env decode st cfg init g now).2 = none ∧
        alookup cfg.path (doSetup env decode st cfg init g now).1.tickers
          = some st.nextTicker ∧
        (doSetup env decode st cfg init g now).1.tasks = st.tasks
          ++ [{ path := cfg.path, chanId := st.nextChan, kind := .tickerLoop st.nextTicker }] ∧
        (doSetup env decode st cfg init g now).1.cronRunning = st.cronRunning) ∧
      (env.parseDuration (dropStr cfg.cronSpec 7) = none →
        (doSetup env decode st cfg init g now).2 = some .invalidDuration)) ∧
    ((hasPrefixStr cfg.cronSpec "@every " = false ∨
        (∃ d : Int, env.parseDuration (dropStr cfg.cronSpec 7) = some d ∧ ¬d < minuteNs)) →
      (env.cronSpecOk cfg.cronSpec = true →
        (doSetup env decode st cfg init g now).2 = none ∧
        (doSetup env decode st cfg init g now).1.tasks
          = st.tasks ++ [{ path := cfg.path, chanId := st.nextChan, kind := .cronJob }] ∧
        (doSetup env decode st cfg init g now).1.cronRunning = true ∧
        (doSetup env decode st cfg init g now).1.tickers = st.tickers) ∧
      (env.cronSpecOk cfg.cronSpec = false →
        (doSetup env decode st cfg init g now).2 = some .scheduleFailed)) := by
  by_cases hs : cfg.skipInitialFetch = true
  · rw [doSetup_skip_state env decode st cfg init g now hs]
    refine ⟨fun hp => ⟨fun d hd hlt => ?_, fun hd => ?_⟩, fun hcase => ⟨fun hok => ?_, fun hbad => ?_⟩⟩
    · obtain ⟨h1, h2, h3, h4⟩ :=
        scheduleUpdates_ticker env (skipState st cfg init) cfg st.nextChan d hp hd hlt
      exact ⟨h1, by rw [h2]; exact alookup_ainsert_self _ _ _, h3, h4⟩
    · exact scheduleUpdates_everyBad env (skipState st cfg init) cfg st.nextChan hp hd
    · exact (scheduleUpdates_cron env (skipState st cfg init) cfg st.nextChan hcase).1 hok
    · exact (scheduleUpdates_cron env (skipState st cfg init) cfg st.nextChan hcase).2 hbad
  · have hs2 : cfg.skipInitialFetch = false := by
      revert hs
      cases cfg.skipInitialFetch <;> simp
    rw [doSetup_fetchok_state env decode st cfg init g now hs2 (hreach hs2)]
    refine ⟨fun hp => ⟨fun d hd hlt => ?_, fun hd => ?_⟩, fun hcase => ⟨fun hok => ?_, fun hbad => ?_⟩⟩
    · obtain ⟨h1, h2, h3, h4⟩ := scheduleUpdates_ticker env
        (okState decode st cfg init g now) cfg st.nextChan d hp hd hlt
      exact ⟨h1, by rw [h2]; exact alookup_ainsert_self _ _ _, h3, h4⟩
    · exact scheduleUpdates_everyBad env (okState decode st cfg init g now) cfg
        st.nextChan hp hd
    · exact (scheduleUpdates_cron env (okState decode st cfg init g now) cfg
        st.nextChan hcase).1 hok
    · exact (scheduleUpdates_cron env (okState decode st cfg init g now) cfg
        st.nextChan hcase).2 hbad

/-- Witness for C7 at concrete inputs: sub-minute `@every` takes the
ticker, an unparsable `@every` duration fails, a plain cron spec and a
minute-or-longer `@every` spec take the cron evaluator, and a rejected
spec fails. -/
theorem c7_witness :
    ((doSetup mixedEnv headDecode initState tickerCfg 0 .fail 0).2 = none ∧
      alookup "/k" (doSetup mixedEnv headDecode initState tickerCfg 0 .fail 0).1.tickers
        = some 0 ∧
      (doSetup mixedEnv headDecode initState tickerCfg 0 .fail 0).1.cronRunning = false) ∧
    ((doSetup mixedEnv headDecode initState bogusCfg 0 .fail 0).2
      = some .invalidDuration) ∧
    ((doSetup mixedEnv headDecode initState cronCfg 0 .fail 0).2 = none ∧
      (doSetup mixedEnv headDecode initState cronCfg 0 .fail 0).1.cronRunning = true) ∧
    ((doSetup mixedEnv headDecode initState longEveryCfg 0 .fail 0).2 = none ∧
      (doSetup mixedEnv headDecode initState longEveryCfg 0 .fail 0).1.tasks
        = [{ path := "/k", chanId := 0, kind := .cronJob }]) ∧
    ((doSetup mixedEnv headDecode initState rejectedCfg 0 .fail 0).2
      = some .scheduleFailed) := by
  have h1 := c7_schedule_policy mixedEnv headDecode initState tickerCfg 0 .fail 0
    (by intro h; cases h)
  have h2 := c7_schedule_policy mixedEnv headDecode initState bogusCfg 0 .fail 0
    (by intro h; cases h)
  have h3 := c7_schedule_policy mixedEnv headDecode initState cronCfg 0 .fail 0
    (by intro h; cases h)
  have h4 := c7_schedule_policy mixedEnv headDecode initState longEveryCfg 0 .fail 0
    (by intro h; cases h)
  have h5 := c7_schedule_policy mixedEnv headDecode initState rejectedCfg 0 .fail 0
    (by intro h; cases h)
  refine ⟨?_, ?_, ?_, ?_, ?_⟩
  · obtain ⟨ha, hb, _, hd⟩ := (h1.1 (by decide)).1 1000000000 (by decide) (by decide)
    exact ⟨ha, hb, hd⟩
  · exact (h2.1 (by decide)).2 (by decide)
  · obtain ⟨ha, _, hc, _⟩ := (h3.2 (Or.inl (by decide))).1 (by decide)
    exact ⟨ha, hc⟩
  · obtain ⟨ha, hb, _, _⟩ :=
      (h4.2 (Or.inr ⟨90000000000, by decide, by decide⟩)).1 (by decide)
    exact ⟨ha, hb⟩
  · exact (h5.2 (Or.inl (by decide))).2 (by decide)

/-- Claim C10: when `Register` is given a valid initial fetch but a
schedule expression that cannot be resolved, it fails with a schedule
error, yet nothing is rolled back: the entry created at the start of the
call (now holding the successfully fetched value) and the key's stop
channel stay registered, and a subsequent `GetCached` at the fetch time
returns the fetched value with no error even though `Register` failed. -/
theorem c10_no_rollback {α : Type} (env : SchedEnv) (decode : List Nat → Option α)
    (st : ClientState α) (cfg : CacheConfig) (init : α) (g : GetResult) (now : Int)
    (hs : cfg.skipInitialFetch = false)
    (hu : (updateCache decode (ainsert cfg.path (entry0 init cfg.expiration) st.cache)
        g now cfg.path).2 = none)
    (hbad : schedAccepts env cfg.cronSpec = false)
    (hexp : 0 ≤ cfg.expiration) :
    ((doSetup env decode st cfg init g now).2 = some .invalidDuration ∨
      (doSetup env decode st cfg init g now).2 = some .scheduleFailed) ∧
    alookup cfg.path (doSetup env decode st cfg init g now).1.stopChans
      = some st.nextChan ∧
    (∃ v, alookup cfg.path (doSetup env decode st cfg init g now).1.cache
      = some { data := v, updatedAt := now, expiration := cfg.expiration }) ∧
    (∃ v, GetCached (doSetup env decode st cfg init g now).1.cache now cfg.path
      = (some v, none)) := by
  rw [doSetup_fetchok_state env decode st cfg init g now hs hu]
  obtain ⟨herr, hst⟩ :=
    scheduleUpdates_err env (okState decode st cfg init g now) cfg st.nextChan hbad
  obtain ⟨v, hv⟩ := updateCache_ok_lookup decode
    (ainsert cfg.path (entry0 init cfg.expiration) st.cache) g now cfg.path
    (entry0 init cfg.expiration) (alookup_ainsert_self _ _ _) hu
  have hv2 : alookup cfg.path
      (scheduleUpdates env (okState decode st cfg init g now) cfg st.nextChan).1.cache
      = some { data := v, updatedAt := now, expiration := cfg.expiration } := by
    rw [hst]
    exact hv
  have hfresh : ¬timeSub now now > cfg.expiration := by
    rw [timeSub_self]
    omega
  refine ⟨herr, ?_, ⟨v, hv2⟩, ⟨v, ?_⟩⟩
  · rw [hst]
    exact alookup_ainsert_self _ _ _
  · simp [GetCached, hv2, hfresh]

/-- Witness for C10: a concrete registration whose initial fetch
succeeds and whose schedule the cron parser rejects; the fetched value
remains readable with no error. -/
theorem c10_witness :
    ((doSetup tickerEnv headDecode initState rejectedFetchCfg 0
        (.resp ⟨200, some [9]⟩) 77).2 = some .invalidDuration ∨
      (doSetup tickerEnv headDecode initState rejectedFetchCfg 0
        (.resp ⟨200, some [9]⟩) 77).2 = some .scheduleFailed) ∧
    (∃ v, GetCached (doSetup tickerEnv headDecode initState rejectedFetchCfg 0
        (.resp ⟨200, some [9]⟩) 77).1.cache 77 "/k" = (some v, none)) := by
  have h := c10_no_rollback tickerEnv headDecode initState rejectedFetchCfg 0
    (.resp ⟨200, some [9]⟩) 77 rfl rfl (by decide) (by decide)
  exact ⟨h.1, h.2.2.2⟩

/-- Counterexample to claim C1 as stated: two simultaneous
`GetCachedOrFetch` calls against a stale entry (positive one-minute
freshness window, last updated long ago) under the interleaving in which
both callers pass the staleness check before either fetches. The claim
demands at most one network fetch; this execution performs two. -/
theorem c1_counterexample :
    (raceRun (fun k => k + 1) 100000000000 [0, 1, 0, 1, 0, 1]
      ((⟨0, 1000, 60000000000, 0⟩ : FetchRace Nat),
        [⟨0, none⟩, ⟨0, none⟩])).1.fetchCount = 2 := by
  decide

theorem countP_set_add {A : Type} (p : A → Bool) :
    ∀ (l : List A) (i : Nat) (a c : A), l[i]? = some c →
    (l.set i a).countP p + (if p c then 1 else 0)
      = l.countP p + (if p a then 1 else 0) := by
  intro l
  induction l with
  | nil =>
    intro i a c h
    simp at h
  | cons hd tl ih =>
    intro i a c h
    cases i with
    | zero =>
      simp only [List.getElem?_cons_zero] at h
      injection h with h2
      subst h2
      simp [List.set, List.countP_cons]
      omega
    | succ n =>
      simp only [List.getElem?_cons_succ] at h
      simp only [List.set, List.countP_cons]
      have := ih n a c h
      omega

/-- Along any interleaving, the fetch count plus the number of callers
that might still fetch (pc at most `1`) never increases: each caller
fetches at most once. -/
theorem raceRun_bound {α : Type} (newVal : Nat → α) (now : Int) :
    ∀ (sched : List Nat) (g : FetchRace α) (cs : List (RaceCaller α)),
    (raceRun newVal now sched (g, cs)).1.fetchCount
      + (raceRun newVal now sched (g, cs)).2.countP (fun c => decide (c.pc ≤ 1))
    ≤ g.fetchCount + cs.countP (fun c => decide (c.pc ≤ 1)) := by
  intro sched
  induction sched with
  | nil =>
    intro g cs
    exact Nat.le_refl _
  | cons i rest ih =>
    intro g cs
    cases hci : cs[i]? with
    | none =>
      have hred : raceRun newVal now (i :: rest) (g, cs) = raceRun newVal now rest (g, cs) := by
        simp [raceRun, hci]
      rw [hred]
      exact ih g cs
    | some c =>
      have hred : raceRun newVal now (i :: rest) (g, cs)
          = raceRun newVal now rest
              ((raceStep newVal now g c).1, cs.set i (raceStep newVal now g c).2) := by
        simp [raceRun, hci]
      rw [hred]
      have hih := ih (raceStep newVal now g c).1 (cs.set i (raceStep newVal now g c).2)
      have hcount := countP_set_add (fun c => decide (c.pc ≤ 1)) cs i
        (raceStep newVal now g c).2 c hci
      have hstep : ((raceStep newVal now g c).1.fetchCount = g.fetchCount ∧
            (if (fun x : RaceCaller α => decide (x.pc ≤ 1)) (raceStep newVal now g c).2
                = true then 1 else 0)
              ≤ (if (fun x : RaceCaller α => decide (x.pc ≤ 1)) c = true then 1 else 0)) ∨
          ((raceStep newVal now g c).1.fetchCount = g.fetchCount + 1 ∧
            (if (fun x : RaceCaller α => decide (x.pc ≤ 1)) c = true then 1 else 0) = 1 ∧
            (if (fun x : RaceCaller α => decide (x.pc ≤ 1)) (raceStep newVal now g c).2
                = true then 1 else 0) = 0) := by
        obtain ⟨pc, ret⟩ := c
        cases pc with
        | zero =>
          by_cases hn : needsFetchAt now g
          · left
            simp [raceStep, hn]
          · left
            simp [raceStep, hn]
        | succ n =>
          cases n with
          | zero =>
            right
            simp [raceStep, raceFetched]
          | succ m =>
            cases m with
            | zero =>
              left
              simp [raceStep]
            | succ k =>
              left
              simp [raceStep]
      rcases hstep with ⟨h1, h2⟩ | ⟨h1, h2, h3⟩ <;> omega

/-- On a fresh entry, no interleaving of callers that all start at the
staleness check ever fetches: the entry is unchanged and every caller
that finished returned the cached value. -/
theorem raceRun_fresh {α : Type} (newVal : Nat → α) (now : Int) (g : FetchRace α)
    (hfresh : ¬needsFetchAt now g) :
    ∀ (sched : List Nat) (cs : List (RaceCaller α)),
    (∀ c ∈ cs, c.pc ≠ 1 ∧ (c.pc = 3 → c.ret = some g.data)) →
    (raceRun newVal now sched (g, cs)).1 = g ∧
    ∀ c ∈ (raceRun newVal now sched (g, cs)).2,
      c.pc ≠ 1 ∧ (c.pc = 3 → c.ret = some g.data) := by
  intro sched
  induction sched with
  | nil =>
    intro cs hcs
    exact ⟨rfl, hcs⟩
  | cons i rest ih =>
    intro cs hcs
    cases hci : cs[i]? with
    | none =>
      have hred : raceRun newVal now (i :: rest) (g, cs) = raceRun newVal now rest (g, cs) := by
        simp [raceRun, hci]
      rw [hred]
      exact ih cs hcs
    | some c =>
      have hc := hcs c (List.getElem?_mem hci)
      have hstep : (raceStep newVal now g c).1 = g ∧
          (raceStep newVal now g c).2.pc ≠ 1 ∧
          ((raceStep newVal now g c).2.pc = 3 → (raceStep newVal now g c).2.ret = some g.data) := by
        obtain ⟨pc, ret⟩ := c
        cases pc with
        | zero =>
          refine ⟨?_, ?_, ?_⟩ <;> simp [raceStep, hfresh]
        | succ n =>
          cases n with
          | zero => exact absurd rfl hc.1
          | succ m =>
            cases m with
            | zero =>
              refine ⟨?_, ?_, ?_⟩ <;> simp [raceStep]
            | succ k =>
              exact ⟨rfl, hc.1, hc.2⟩
      have hred : raceRun newVal now (i :: rest) (g, cs)
          = raceRun newVal now rest
              ((raceStep newVal now g c).1, cs.set i (raceStep newVal now g c).2) := by
        simp [raceRun, hci]
      rw [hred, hstep.1]
      apply ih
      intro x hx
      rcases List.mem_or_eq_of_mem_set hx with hxm | hxe
      · exact hcs x hxm
      · rw [hxe]
        exact hstep.2

/-- Claim C1 (amended): there is no single-flight coordination in
`GetCachedOrFetch`, so N simultaneous calls against a stale key may each
perform their own fetch — the guarantee that holds is one fetch *per
caller* at most (N in total), not one fetch in total (see the
counterexample with two fetches for two callers). Against a fresh key the
claim's zero-I/O fast path does hold for every interleaving: no fetch
happens, the entry is untouched, and every caller that finished returned
the cached value. -/
theorem c1_no_stampede_amended {α : Type} (newVal : Nat → α) (now : Int)
    (g : FetchRace α) (sched : List Nat) :
    (¬needsFetchAt now g → ∀ n : Nat,
      (raceRun newVal now sched (g, List.replicate n { pc := 0, ret := none })).1 = g ∧
      ∀ c ∈ (raceRun newVal now sched (g, List.replicate n { pc := 0, ret := none })).2,
        c.pc ≠ 1 ∧ (c.pc = 3 → c.ret = some g.data)) ∧
    (∀ n : Nat,
      (raceRun newVal now sched (g, List.replicate n { pc := 0, ret := none })).1.fetchCount
        ≤ g.fetchCount + n) := by
  have hrep : ∀ n : Nat,
      (List.replicate n ({ pc := 0, ret := none } : RaceCaller α)).countP
        (fun c => decide (c.pc ≤ 1)) = n := by
    intro n
    induction n with
    | zero => rfl
    | succ m ihm => simp [List.replicate, List.countP_cons, ihm]
  constructor
  · intro hfresh n
    apply raceRun_fresh newVal now g hfresh sched
    intro c hc
    have hco := List.eq_of_mem_replicate hc
    rw [hco]
    refine ⟨by simp, by simp⟩
  · intro n
    have h := raceRun_bound newVal now sched g (List.replicate n { pc := 0, ret := none })
    rw [hrep n] at h
    omega

/-- Witness for C1 at a concrete fresh entry and schedule: two
interleaved callers perform zero fetches, leave the entry unchanged, and
the total fetch count is bounded by the caller count. -/
theorem c1_witness :
    ((raceRun (fun k => k) 100 [0, 1, 0, 1]
        ((⟨5, 50, 100, 0⟩ : FetchRace Nat), List.replicate 2 { pc := 0, ret := none })).1
      = ⟨5, 50, 100, 0⟩) ∧
    ((raceRun (fun k => k) 100 [0, 1, 0, 1]
        ((⟨5, 50, 100, 0⟩ : FetchRace Nat),
          List.replicate 2 { pc := 0, ret := none })).1.fetchCount ≤ 0 + 2) := by
  have h := c1_no_stampede_amended (fun k => (k : Nat)) 100 ⟨5, 50, 100, 0⟩ [0, 1, 0, 1]
  exact ⟨(h.1 (by decide) 2).1, h.2 2⟩

end HttpClientCache
